import Mathlib

/-!
Verification development for the Citability Engine (AEO scoring system).

The TypeScript sources are shallowly embedded here:
* strings are `List Char` (`Str`); JavaScript numbers are modelled as `ℚ`
  (the computations use only +, -, *, / and `Math.round`-style rounding,
  which are exact on the rationals for the inputs in question);
* `Math.round` is `jsRound`, rounding half toward positive infinity;
* asynchronous provider calls are modelled by an explicit environment
  (`Env`) mapping a query and provider to `Option` of a detection outcome,
  `none` representing a thrown/rejected provider call;
* fallible code paths return values rather than throwing, mirroring the
  `try`/`catch` recovery in the sources.
-/

namespace Citability

/-- Strings are modelled as lists of characters. -/
abbrev Str := List Char

/-- Coerce a Lean string literal to the character-list model. -/
def str (s : String) : Str := s.data

/-- JavaScript `Math.round`: round half toward positive infinity
(`Math.round x = ⌊x + 1/2⌋` for every finite `x`). -/
def jsRound (q : ℚ) : ℤ := Int.floor (q + 1/2)

theorem jsRound_nonneg {q : ℚ} (h : 0 ≤ q) : 0 ≤ jsRound q := by
  unfold jsRound
  have : (0 : ℚ) ≤ q + 1/2 := by linarith
  exact Int.floor_nonneg.mpr this

theorem jsRound_le_of_le {q : ℚ} {b : ℤ} (h : q ≤ b) : jsRound q ≤ b := by
  unfold jsRound
  have h2 : q + 1/2 < ((b + 1 : ℤ) : ℚ) := by push_cast; linarith
  have := Int.floor_lt.mpr h2
  omega

/-- `jsRound` of a value clamped to `[0, 100]` lies in `[0, 100]`. -/
theorem jsRound_clamp_mem (q : ℚ) :
    0 ≤ jsRound (min 100 (max 0 q)) ∧ jsRound (min 100 (max 0 q)) ≤ 100 := by
  constructor
  · exact jsRound_nonneg (le_min (by norm_num) (le_max_left 0 q))
  · exact jsRound_le_of_le (min_le_left 100 (max 0 q))

-- ---------------------------------------------------------------------------
-- Competitive analysis engine (src/unnamed/part_001): sentiment aggregation
-- ---------------------------------------------------------------------------

/-- Sentiment labels used throughout the competitive analysis engine. -/
inductive Sentiment
  | positive
  | neutral
  | negative
deriving DecidableEq, Repr

/-- The fields of `CitationAnalysis` (from `@/lib/citation/detector`) that the
competitive analysis engine reads: `cited`, `sentiment` (nullable) and
`position` (nullable). Other fields (`citationType`, `confidence`,
`competitorsMentioned`) are never read by `buildCompetitorProfile` and are
omitted from the model. -/
structure CitationAnalysis where
  cited : Bool
  sentiment : Option Sentiment
  position : Option Int
deriving DecidableEq, Repr

/-- One probe result of the competitive analysis engine (interface
`ProbeResult` of src/unnamed/part_001). The `Map<string, CitationAnalysis>`
is modelled as an association list with distinct keys; `responseText` is
never read by the profile builder and is omitted. -/
structure ProbeResult where
  query : Str
  category : Str
  provider : Str
  brandCitation : CitationAnalysis
  competitorCitations : List (Str × CitationAnalysis)
deriving DecidableEq, Repr

/-- `competitorCitations.get(name)` on the association-list model. -/
def lookupCitation (name : Str) (r : ProbeResult) : Option CitationAnalysis :=
  (r.competitorCitations.find? (fun p => p.1 = name)).map Prod.snd

/-- `citation?.cited` for a competitor on one probe result
(`undefined` lookups count as not cited). -/
def citedFor (name : Str) (r : ProbeResult) : Bool :=
  match lookupCitation name r with
  | some c => c.cited
  | none => false

/-- The sentiments collected by `buildCompetitorProfile`'s loop: for each
result where the competitor's citation is present and `cited`, the citation's
sentiment if it is non-null (`if (citation.sentiment) sentiments.push(...)`). -/
def collectedSentiments (name : Str) (results : List ProbeResult) : List Sentiment :=
  results.filterMap (fun r =>
    match lookupCitation name r with
    | some c => if c.cited then c.sentiment else none
    | none => none)

/-- The positions collected by `buildCompetitorProfile`'s loop
(`if (citation.position !== null) positions.push(...)`). -/
def collectedPositions (name : Str) (results : List ProbeResult) : List Int :=
  results.filterMap (fun r =>
    match lookupCitation name r with
    | some c => if c.cited then c.position else none
    | none => none)

/-- `computeAvgSentiment` (src/unnamed/part_001 lines 47–64): empty input is
neutral; otherwise positive when `pos ≥ neg ∧ pos ≥ neu`, else negative when
`neg > pos ∧ neg ≥ neu`, else neutral. -/
def computeAvgSentiment (sentiments : List Sentiment) : Sentiment :=
  if sentiments = [] then .neutral
  else
    let pos := sentiments.count .positive
    let neu := sentiments.count .neutral
    let neg := sentiments.count .negative
    if pos ≥ neg ∧ pos ≥ neu then .positive
    else if neg > pos ∧ neg ≥ neu then .negative
    else .neutral

/-- `computeAvgPosition` (src/unnamed/part_001 lines 66–72): mean of the
strictly positive positions rounded to one decimal, `null` when none. -/
def computeAvgPosition (positions : List Int) : Option ℚ :=
  let valid := positions.filter (fun p => 0 < p)
  if valid = [] then none
  else some ((jsRound (((valid.sum : ℚ) / valid.length) * 10) : ℚ) / 10)

/-- `CompetitorInput` of src/unnamed/part_001. -/
structure CompetitorInput where
  name : Str
  domain : Str
deriving DecidableEq, Repr

/-- `CompetitorProfile` of src/unnamed/part_001. Rates that JavaScript stores
as numbers are rationals here. -/
structure CompetitorProfile where
  name : Str
  domain : Str
  citationRate : ℤ
  avgPosition : Option ℚ
  avgSentiment : Sentiment
  strongCategories : List Str
  weakCategories : List Str
deriving DecidableEq, Repr

/-- `buildCompetitorProfile` (src/unnamed/part_001 lines 74–138). The loops
over `results` are expressed with `countP`/`filterMap` preserving the
iteration order; the `strong`/`weak` category loops become order-preserving
filters over `allCategories` (the `else if` branch for weak categories is
equivalent to the plain `rate ≤ 0.2` test since `0.2 < 0.6`). -/
def buildCompetitorProfile (competitor : CompetitorInput) (results : List ProbeResult)
    (allCategories : List Str) : CompetitorProfile :=
  let citedCount := results.countP (citedFor competitor.name)
  let totalProbes := results.length
  let citationRate : ℤ :=
    if 0 < totalProbes then jsRound (((citedCount : ℚ) / totalProbes) * 100) else 0
  let catTotal := fun cat => results.countP (fun r => r.category == cat)
  let catCited := fun cat =>
    results.countP (fun r => r.category == cat && citedFor competitor.name r)
  let strongCategories := allCategories.filter (fun cat =>
    decide (catTotal cat ≠ 0 ∧ (6 : ℚ)/10 ≤ (catCited cat : ℚ) / catTotal cat))
  let weakCategories := allCategories.filter (fun cat =>
    decide (catTotal cat ≠ 0 ∧ ¬ ((6 : ℚ)/10 ≤ (catCited cat : ℚ) / catTotal cat) ∧
      (catCited cat : ℚ) / catTotal cat ≤ 2/10))
  { name := competitor.name
    domain := competitor.domain
    citationRate := citationRate
    avgPosition := computeAvgPosition (collectedPositions competitor.name results)
    avgSentiment := computeAvgSentiment (collectedSentiments competitor.name results)
    strongCategories := strongCategories
    weakCategories := weakCategories }

-- ---------------------------------------------------------------------------
-- Generic helpers shared by several embedded functions
-- ---------------------------------------------------------------------------

/-- First-occurrence deduplication with an accumulator of already seen keys;
models the key set of a JavaScript `Map`/`Set` built by insertion
(insertion order, first occurrence wins). -/
def firstDedupAux [DecidableEq α] (seen : List α) : List α → List α
  | [] => []
  | a :: l => if a ∈ seen then firstDedupAux seen l else a :: firstDedupAux (a :: seen) l

/-- First-occurrence deduplication (JavaScript `Map` key order). -/
def firstDedup [DecidableEq α] (l : List α) : List α := firstDedupAux [] l

/-- Insert into a list sorted descending by `key`, placing the new element
before the first element whose key is not larger. -/
def insertDescBy (key : α → ℚ) (x : α) : List α → List α
  | [] => [x]
  | y :: ys => if key y ≤ key x then x :: y :: ys else y :: insertDescBy key x ys

/-- Stable sort, descending by `key`: models the JavaScript stable
`arr.sort((a, b) => key(b) - key(a))`. Elements with equal keys keep their
original relative order. -/
def sortDescBy (key : α → ℚ) : List α → List α
  | [] => []
  | x :: xs => insertDescBy key x (sortDescBy key xs)

/-- `Math.round(q * 10) / 10`: round to one decimal as the scorer does for
all percentage rates. -/
def round1 (q : ℚ) : ℚ := (jsRound (q * 10) : ℚ) / 10

-- ---------------------------------------------------------------------------
-- Competitive gap analysis (src/src/lib/scoring/aeo-scorer.ts lines 473–566)
-- ---------------------------------------------------------------------------

/-- `Competitor` of aeo-scorer.ts. -/
structure Competitor where
  name : Str
  domain : Str
deriving DecidableEq, Repr

/-- `CitationResult` of aeo-scorer.ts (existing citation data fed to
`analyzeCompetitiveGap`). -/
structure CitationResult where
  query : Str
  provider : Str
  brandCited : Bool
  competitorsCited : List Str
deriving DecidableEq, Repr

/-- The four-way `gapAnalysis` narrative of `analyzeCompetitiveGap`, plus the
insufficient-data message for an empty result set. The TypeScript builds
interpolated strings; the model keeps the selected template and its numeric
arguments instead of formatting them. -/
inductive GapAnalysis
  | insufficientData
  | leads (yourRate avgRate : ℚ)
  | greenfield
  | notCited (avgRate : ℚ)
  | trails (deficit : ℚ) (topName : Option Str) (topRate : ℚ)
deriving DecidableEq, Repr

/-- `CompetitiveGapScore` of aeo-scorer.ts. -/
structure CompetitiveGapScore where
  score : ℤ
  weight : ℚ
  yourCitationRate : ℚ
  avgCompetitorCitationRate : ℚ
  topCompetitor : Option Str
  topCompetitorRate : ℚ
  gapAnalysis : GapAnalysis
deriving DecidableEq, Repr

/-- Total citation count of one competitor name across a result list:
`competitorCiteCounts` accumulation in `analyzeCompetitiveGap` (each
occurrence in each result's `competitorsCited` adds one, but only for names
pre-seeded from the competitor list — the caller filters by membership). -/
def countCitations (name : Str) (rs : List CitationResult) : Nat :=
  (rs.map (fun r => r.competitorsCited.count name)).sum

/-- The brand's citation rate (cited results over all results, as a
percentage rounded to one decimal). -/
def yourCitationRateOf (rs : List CitationResult) : ℚ :=
  round1 ((rs.countP (·.brandCited) : ℚ) / rs.length * 100)

/-- The `competitorRates` list: one rate per distinct competitor name (in
`Map` insertion order), counting that name's occurrences across the
results' `competitorsCited` lists. -/
def competitorRatesOf (competitors : List Competitor) (rs : List CitationResult) :
    List (Str × ℚ) :=
  (firstDedup (competitors.map (·.name))).map
    (fun nm => (nm, round1 ((countCitations nm rs : ℚ) / rs.length * 100)))

/-- `competitorRates` after the stable descending sort by rate. -/
def sortedRatesOf (competitors : List Competitor) (rs : List CitationResult) :
    List (Str × ℚ) :=
  sortDescBy Prod.snd (competitorRatesOf competitors rs)

/-- `avgCompetitorRate`: mean of the per-competitor rates rounded to one
decimal, 0 when there are no competitors. -/
def avgCompetitorRateOf (competitors : List Competitor) (rs : List CitationResult) : ℚ :=
  let sorted := sortedRatesOf competitors rs
  if sorted = [] then 0 else round1 ((sorted.map Prod.snd).sum / sorted.length)

/-- The score rule of `analyzeCompetitiveGap`: 100 when the brand is ahead
of (or level with) the competitor average, otherwise
`max(0, round(100 − gap × 1.5))`. -/
def competitiveGapScoreValue (yourRate avgRate : ℚ) : ℤ :=
  if avgRate ≤ yourRate then 100
  else max 0 (jsRound (100 - (avgRate - yourRate) * (3/2)))

/-- The four-way narrative selection of `analyzeCompetitiveGap`. -/
def gapAnalysisOf (yourRate avgRate : ℚ) (top : Option (Str × ℚ)) : GapAnalysis :=
  if yourRate ≥ avgRate ∧ 0 < yourRate then .leads yourRate avgRate
  else if yourRate = 0 ∧ avgRate = 0 then .greenfield
  else if yourRate = 0 then .notCited avgRate
  else
    .trails (round1 (avgRate - yourRate)) (top.map Prod.fst)
      (match top with
       | some t => t.2
       | none => 0)

/-- `analyzeCompetitiveGap` (aeo-scorer.ts lines 473–566). The `Map` of
competitor counts is modelled by first-occurrence deduplication of the
competitor names; `competitorRates.sort((a, b) => b.rate - a.rate)` is the
stable descending sort; all roundings are `Math.round` to one decimal. -/
def analyzeCompetitiveGap (_brandName _brandDomain : Str) (competitors : List Competitor)
    (existingResults : List CitationResult) : CompetitiveGapScore :=
  if existingResults = [] then
    { score := 50, weight := 3/10, yourCitationRate := 0, avgCompetitorCitationRate := 0,
      topCompetitor := none, topCompetitorRate := 0, gapAnalysis := .insufficientData }
  else
    let yourCitationRate := yourCitationRateOf existingResults
    let sorted := sortedRatesOf competitors existingResults
    let avgCompetitorRate := avgCompetitorRateOf competitors existingResults
    let topCompetitor := sorted.head?
    { score := competitiveGapScoreValue yourCitationRate avgCompetitorRate
      weight := 3/10
      yourCitationRate := yourCitationRate
      avgCompetitorCitationRate := avgCompetitorRate
      topCompetitor := topCompetitor.map Prod.fst
      topCompetitorRate :=
        match topCompetitor with
        | some t => t.2
        | none => 0
      gapAnalysis := gapAnalysisOf yourCitationRate avgCompetitorRate topCompetitor }

-- ---------------------------------------------------------------------------
-- String primitives for the query extractor (src/unnamed/part_002)
-- ---------------------------------------------------------------------------

/-- JavaScript `\s` restricted to the ASCII whitespace characters that occur
in the sources: space, tab, newline, carriage return. -/
def isWs (c : Char) : Bool := c = ' ' ∨ c = '\t' ∨ c = '\n' ∨ c = '\r'

/-- `String.prototype.trim`. -/
def trimStr (s : Str) : Str := ((s.dropWhile isWs).reverse.dropWhile isWs).reverse

/-- `String.prototype.toLowerCase` on the ASCII range. -/
def toLowerStr (s : Str) : Str := s.map Char.toLower

/-- Case-insensitive literal prefix test (the `i`-flagged anchored literals). -/
def startsWithCI (pat s : Str) : Bool := toLowerStr (s.take pat.length) = toLowerStr pat

/-- Strip a case-insensitive literal prefix, `none` when it is absent. -/
def dropCI (pat s : Str) : Option Str :=
  if startsWithCI pat s then some (s.drop pat.length) else none

/-- Case-sensitive `String.prototype.endsWith`. -/
def endsWithStr (pat s : Str) : Bool := s.reverse.take pat.length = pat.reverse

/-- Does the string end with a question mark (`trimmed.endsWith("?")`)? -/
def endsWithQm (s : Str) : Bool := s.getLast? = some '?'

/-- `markdown.split("\n")`. -/
def splitLines (s : Str) : List Str := s.splitOnP (· = '\n')

/-- `text.split(/\s+/).filter((w) => w.length > 0)`: the maximal runs of
non-whitespace characters. -/
def splitWords (s : Str) : List Str := (s.splitOnP isWs).filter (· ≠ [])

/-- `trimmed.split(/\s+/).pop() ?? ""` on an already trimmed string: its last
whitespace-separated word (empty for the empty string). -/
def lastWordOf (s : Str) : Str := ((splitWords s).getLast?).getD []

/-- Lowercase the first character:
`trimmed.charAt(0).toLowerCase() + trimmed.slice(1)`. -/
def lowerFirst : Str → Str
  | [] => []
  | c :: cs => Char.toLower c :: cs

-- ---------------------------------------------------------------------------
-- headingToQuestion (src/unnamed/part_002 lines 13–58)
-- ---------------------------------------------------------------------------

/-- Match `/^how\s+to\s+(.+)/i` against a trimmed single-line string and
return the capture. `\s+` is taken maximally; backtracking into it cannot
change the outcome because the following literal starts with a
non-whitespace character. -/
def matchHowTo (s : Str) : Option Str :=
  match dropCI (str "how") s with
  | none => none
  | some t =>
    let t1 := t.dropWhile isWs
    if t1.length = t.length then none
    else
      match dropCI (str "to") t1 with
      | none => none
      | some t2 =>
        let t3 := t2.dropWhile isWs
        if t3.length = t2.length then none
        else
          let cap := t3.takeWhile (· ≠ '\n')
          if cap = [] then none else some cap

/-- The alternation `(matters?|is\s+important)` as a match-at-point test
(case-insensitive; the optional `s` and any trailing text are irrelevant to
whether a match starts here). -/
def whyKeywordAt (s : Str) : Bool :=
  startsWithCI (str "matter") s ||
    (match dropCI (str "is") s with
     | some t =>
       let t1 := t.dropWhile isWs
       decide (t1.length ≠ t.length) && startsWithCI (str "important") t1
     | none => false)

/-- The lazy capture `(.+?)` of `/^why\s+(.+?)\s+(matters?|is\s+important)/i`:
grow the capture one character at a time (rejecting newlines, which `.`
cannot match) until a whitespace run followed by the keyword alternation
follows. -/
def whyScan (x rest : Str) : Option Str :=
  match rest with
  | [] => none
  | c :: cs =>
    if c = '\n' then none
    else
      let x' := c :: x
      let t1 := cs.dropWhile isWs
      if decide (t1.length ≠ cs.length) && whyKeywordAt t1 then some x'.reverse
      else whyScan x' cs

/-- The `\s+` after `why` is tried greedily (maximal run first) and then
backtracked one character at a time, exactly as the regex engine does. -/
def whyTryWs : Nat → Str → Option Str
  | 0, _ => none
  | Nat.succ k, s =>
    match whyScan [] (s.drop (Nat.succ k)) with
    | some cap => some cap
    | none => whyTryWs k s

/-- Capture of `/^why\s+(.+?)\s+(matters?|is\s+important)/i` given the text
after the case-insensitive `why`. -/
def whyMatchCapture (s : Str) : Option Str :=
  whyTryWs (s.takeWhile isWs).length s

/-- `/^why\s+/i` as a test. -/
def whyTest (s : Str) : Bool :=
  match dropCI (str "why") s with
  | some (c :: _) => isWs c
  | _ => false

/-- `/^when\s+to\s+/i` as a test. -/
def whenToTest (s : Str) : Bool :=
  match dropCI (str "when") s with
  | none => false
  | some t =>
    let t1 := t.dropWhile isWs
    decide (t1.length ≠ t.length) &&
      (match dropCI (str "to") t1 with
       | some (c :: _) => isWs c
       | _ => false)

/-- `/^(what|where|which|who)\s+/i` as a test. -/
def questionWordTest (s : Str) : Bool :=
  [str "what", str "where", str "which", str "who"].any (fun w =>
    match dropCI w s with
    | some (c :: _) => isWs c
    | _ => false)

/-- `headingToQuestion` (src/unnamed/part_002 lines 13–58). -/
def headingToQuestion (heading : Str) : Str :=
  let trimmed := trimStr heading
  if endsWithQm trimmed then trimmed
  else
    match matchHowTo trimmed with
    | some rest => str "How to " ++ rest ++ str "?"
    | none =>
      match (match dropCI (str "why") trimmed with
             | some t => whyMatchCapture t
             | none => none) with
      | some x => str "Why does " ++ x ++ str " matter?"
      | none =>
        if whyTest trimmed then trimmed ++ str "?"
        else if whenToTest trimmed then trimmed ++ str "?"
        else if questionWordTest trimmed then trimmed ++ str "?"
        else
          let lastWord := lastWordOf trimmed
          let usePlural := endsWithStr (str "s") lastWord ∧
            ¬ endsWithStr (str "ss") lastWord ∧ ¬ endsWithStr (str "us") lastWord
          let verb := if usePlural then str "are" else str "is"
          str "What " ++ verb ++ str " " ++ lowerFirst trimmed ++ str "?"

-- ---------------------------------------------------------------------------
-- extractProbeQueries (src/unnamed/part_002 lines 125–190)
-- ---------------------------------------------------------------------------

/-- Query sources and their fixed confidence weights. -/
inductive QuerySource
  | heading
  | faq
  | topic
  | keyword
deriving DecidableEq, Repr

/-- `ExtractedQuery` of src/unnamed/part_002. -/
structure ExtractedQuery where
  query : Str
  source : QuerySource
  confidence : ℚ
deriving DecidableEq, Repr

/-- Per-line reading of the global multiline regex `/^#{2,3}\s+(.+)$/gm`:
a line of exactly two or three leading `#` followed by a whitespace character
and at least one further character matches, and the trimmed capture equals
the trimmed remainder after the first whitespace (the greedy `\s+`/`.+`
split only moves whitespace between the two, which trimming erases).
A carriage return inside the capture region cannot be matched by `.`
and blocks the match. -/
def headingTextOf (line : Str) : Option Str :=
  let hashes := (line.takeWhile (· = '#')).length
  let rest := line.drop hashes
  let wsThenMore : Bool :=
    match rest with
    | c :: _ :: _ => isWs c
    | _ => false
  if (hashes = 2 ∨ hashes = 3) ∧ wsThenMore ∧ '\r' ∉ rest.dropWhile isWs then
    some (trimStr (rest.drop 1))
  else none

/-- Heading-sourced queries of `extractProbeQueries`: each matching line's
trimmed heading text, skipped when shorter than 4 characters, converted to
question form with confidence 0.8. -/
def headingQueries (markdown : Str) : List ExtractedQuery :=
  (splitLines markdown).filterMap (fun line =>
    match headingTextOf line with
    | some t =>
      if t.length < 4 then none
      else some ⟨headingToQuestion t, .heading, 8/10⟩
    | none => none)

/-- Per-line reading of the FAQ regex
`/^(?:\*{0,2})Q[:.]\s*\*{0,2}\s*(.+?)(?:\*{0,2})\s*$/gim`: up to two leading
asterisks, then `Q`/`q`, `:` or `.`, optional whitespace, up to two
asterisks, optional whitespace; the lazy capture is the remainder with the
trailing whitespace run and then up to two trailing asterisks stripped.
Degenerate backtrackings of the star groups can only produce captures of at
most two characters, which the ≥5-length filter below discards either way. -/
def faqQuestionOf (line : Str) : Option Str :=
  let k := (line.takeWhile (· = '*')).length
  if k ≤ 2 then
    match line.drop k with
    | qc :: pc :: t =>
      if (qc = 'Q' ∨ qc = 'q') ∧ (pc = ':' ∨ pc = '.') then
        let t1 := t.dropWhile isWs
        let t2 := t1.drop (min 2 (t1.takeWhile (· = '*')).length)
        let t3 := t2.dropWhile isWs
        let noTrailWs := t3.reverse.dropWhile isWs
        let cap := (noTrailWs.drop (min 2 (noTrailWs.takeWhile (· = '*')).length)).reverse
        if cap ≠ [] ∧ '\r' ∉ cap then some cap else none
      else none
    | _ => none
  else none

/-- FAQ-sourced queries of `extractProbeQueries`: trimmed captures of at
least 5 characters, a question mark appended when absent, confidence 0.9. -/
def faqQueries (markdown : Str) : List ExtractedQuery :=
  (splitLines markdown).filterMap (fun line =>
    match faqQuestionOf line with
    | some cap =>
      let question := trimStr cap
      if question.length < 5 then none
      else some ⟨if endsWithQm question then question else question ++ str "?", .faq, 9/10⟩
    | none => none)

/-- Index of the earliest occurrence of `---` (the lazy `[\s\S]*?`). -/
def findTripleDash : Str → Option Nat
  | [] => none
  | c :: cs =>
    if c = '-' ∧ cs.take 2 = str "--" then some 0
    else (findTripleDash cs).map (· + 1)

/-- `markdown.replace(/^---[\s\S]*?---\s*/, "")`: when the text starts with
`---`, drop everything through the earliest following `---` and the
whitespace after it; otherwise leave the text unchanged. -/
def stripFrontMatter (s : Str) : Str :=
  if s.take 3 = str "---" then
    match findTripleDash (s.drop 3) with
    | some i => ((s.drop 3).drop (i + 3)).dropWhile isWs
    | none => s
  else s

/-- The skip conditions of `extractTopicQuery`'s line loop. -/
def topicLineBad (trimmed : Str) : Bool :=
  decide (trimmed = [] ∨ trimmed.take 1 = str "#" ∨ trimmed.take 2 = str "![" ∨
    trimmed.take 3 = str "---")

/-- `snippet.replace(/\s+\S*$/, "")`: remove the trailing non-whitespace run
together with the whitespace run before it; a string without whitespace is
unchanged. -/
def dropLastPartialWord (s : Str) : Str :=
  let r := s.reverse
  let r1 := r.dropWhile (fun c => ¬ isWs c)
  if r1 = [] then s else (r1.dropWhile isWs).reverse

/-- One line of `extractTopicQuery`'s loop: skip bad lines; otherwise build
the snippet (first 120 characters, last partial word removed, trimmed) and,
when longer than 20 characters, frame its leading clause (text before the
first `.`/`!`/`?`) as a `What is …?` question. -/
def topicQueryOfLine (l : Str) : Option Str :=
  let trimmed := trimStr l
  if topicLineBad trimmed then none
  else
    let snippet := trimStr (dropLastPartialWord (trimmed.take 120))
    if 20 < snippet.length then
      some (str "What is " ++
        toLowerStr (trimStr (snippet.takeWhile (fun c => ¬ (c = '.' ∨ c = '!' ∨ c = '?')))) ++
        str "?")
    else none

/-- `extractTopicQuery` (src/unnamed/part_002 lines 64–89). -/
def extractTopicQuery (markdown : Str) : Option Str :=
  (splitLines (stripFrontMatter markdown)).findSome? topicQueryOfLine

/-- Topic-sourced query (confidence 0.7), when one exists. -/
def topicQueries (markdown : Str) : List ExtractedQuery :=
  match extractTopicQuery markdown with
  | some q => [⟨q, .topic, 7/10⟩]
  | none => []

/-- Keyword-sourced queries: `What is the best {keyword}?` with confidence
0.6, for every trimmed keyword of at least 2 characters. -/
def keywordQueries (keywords : List Str) : List ExtractedQuery :=
  keywords.filterMap (fun kw =>
    let trimmedKeyword := trimStr kw
    if trimmedKeyword.length < 2 then none
    else some ⟨str "What is the best " ++ trimmedKeyword ++ str "?", .keyword, 6/10⟩)

/-- Lowercase alphanumeric characters (the class kept by
`replace(/[^a-z0-9\s]/g, "")` after lowercasing). -/
def isAlnumLower (c : Char) : Bool := ('a' ≤ c ∧ c ≤ 'z') ∨ ('0' ≤ c ∧ c ≤ '9')

/-- Structural worker for `collapseWs`: `inWs` records whether the previous
character was whitespace (in which case further whitespace is dropped). -/
def collapseWsGo (inWs : Bool) : Str → Str
  | [] => []
  | c :: cs =>
    if isWs c then
      if inWs then collapseWsGo true cs else ' ' :: collapseWsGo true cs
    else c :: collapseWsGo false cs

/-- `replace(/\s+/g, " ")`: collapse every whitespace run to one space. -/
def collapseWs (s : Str) : Str := collapseWsGo false s

/-- The normalization of `deduplicateQueries`: lowercase, strip every
character outside `[a-z0-9\s]`, collapse whitespace, trim. -/
def normalizeQuery (q : Str) : Str :=
  trimStr (collapseWs ((toLowerStr q).filter (fun c => isAlnumLower c || isWs c)))

/-- The accumulator loop of `deduplicateQueries`: keep a query when its
normalization is non-empty and unseen. -/
def deduplicateQueriesAux (seen : List Str) : List ExtractedQuery → List ExtractedQuery
  | [] => []
  | q :: qs =>
    let n := normalizeQuery q.query
    if n ≠ [] ∧ n ∉ seen then q :: deduplicateQueriesAux (n :: seen) qs
    else deduplicateQueriesAux seen qs

/-- `deduplicateQueries` (src/unnamed/part_002 lines 94–112). -/
def deduplicateQueries (qs : List ExtractedQuery) : List ExtractedQuery :=
  deduplicateQueriesAux [] qs

/-- `extractProbeQueries` (src/unnamed/part_002 lines 125–190): collect
heading, FAQ, topic and keyword queries in push order, deduplicate, sort by
confidence descending (stable), truncate to `maxQueries`. -/
def extractProbeQueries (markdown : Str) (keywords : List Str)
    (maxQueries : Nat := 5) : List ExtractedQuery :=
  let queries := headingQueries markdown ++ faqQueries markdown ++
    topicQueries markdown ++ keywordQueries keywords
  (sortDescBy (·.confidence) (deduplicateQueries queries)).take maxQueries

-- ---------------------------------------------------------------------------
-- Citation validation (aeo-scorer.ts lines 300–467)
-- ---------------------------------------------------------------------------

/-- `LLMProvider`: the four providers named in `selectProbeProviders`'s
preference order (the `@/lib/llm` module is outside the scored sources; the
scorer only relies on this enumeration and on `getEnabledProviders`). -/
inductive Provider
  | google
  | openai
  | perplexity
  | anthropic
deriving DecidableEq, Repr

/-- The cheapest-first preference order of `selectProbeProviders`. -/
def preferenceOrder : List Provider := [.google, .openai, .perplexity, .anthropic]

/-- `selectProbeProviders` (aeo-scorer.ts lines 304–323): walk the preference
order, keeping enabled providers until `count` are selected — i.e. the
enabled members of the preference order, truncated to `count`. -/
def selectProbeProviders (enabled : List Provider) (count : Nat) : List Provider :=
  (preferenceOrder.filter (fun p => decide (p ∈ enabled))).take count

/-- Outcome of one `queryLLM` + `detectCitation` call inside
`validateCitability`'s probe fan-out: the fields of `CitationAnalysis` the
scorer reads. -/
structure CitationOutcome where
  cited : Bool
  position : Option Int
  sentiment : Option Str
  competitorsMentioned : List Str
deriving DecidableEq, Repr

/-- The external environment of `validateCitability`: which providers are
enabled, and what each `(query, provider)` probe call produces. `none`
models a rejected provider call (transport failure, timeout, 4xx/5xx),
which the `try`/`catch` around the call recovers from. -/
structure Env where
  enabledProviders : List Provider
  respond : Str → Provider → Option CitationOutcome

/-- `ValidationProbeResult` of aeo-scorer.ts. -/
structure ValidationProbeResult where
  query : Str
  provider : Provider
  cited : Bool
  position : Option Int
  sentiment : Option Str
  competitorsCited : List Str
deriving DecidableEq, Repr

/-- `CitationValidationScore` of aeo-scorer.ts. -/
structure CitationValidationScore where
  score : ℤ
  weight : ℚ
  probeResults : List ValidationProbeResult
deriving DecidableEq, Repr

/-- One `(probe, provider)` call of the fan-out: a successful call records
the detected citation; a failed call is caught and recorded as a not-cited
result (`cited: false`, null position/sentiment, no competitors). -/
def runProbePair (env : Env) (query : Str) (provider : Provider) : ValidationProbeResult :=
  match env.respond query provider with
  | some c => ⟨query, provider, c.cited, c.position, c.sentiment, c.competitorsMentioned⟩
  | none => ⟨query, provider, false, none, none, []⟩

/-- The complete probe fan-out (`for probe … for provider …` with
`Promise.all`): one result per query × provider pair. The TypeScript pushes
results in completion order, which is irrelevant downstream (every
aggregation over `probeResults` is order-independent); the model fixes the
promise-creation order. -/
def probeResultsOf (env : Env) (queries : List ExtractedQuery)
    (providers : List Provider) : List ValidationProbeResult :=
  queries.flatMap (fun probe => providers.map (runProbePair env probe.query))

/-- Number of cited probe results. -/
def citedCountOf (rs : List ValidationProbeResult) : Nat := rs.countP (·.cited)

/-- Bonus trigger: some cited result has sentiment `"positive"`. -/
def hasPositiveSentiment (rs : List ValidationProbeResult) : Bool :=
  rs.any (fun r => r.cited && decide (r.sentiment = some (str "positive")))

/-- Bonus trigger: some cited result has a non-null list position ≤ 3. -/
def hasTopPosition (rs : List ValidationProbeResult) : Bool :=
  rs.any (fun r => r.cited &&
    (match r.position with
     | some p => decide (p ≤ 3)
     | none => false))

/-- Count of cited results for one query (a `queryProviderMap` entry). -/
def citedCountForQuery (rs : List ValidationProbeResult) (q : Str) : Nat :=
  rs.countP (fun r => r.cited && decide (r.query = q))

/-- Bonus trigger: some query is cited by at least two providers. -/
def multiProviderCited (rs : List ValidationProbeResult) : Bool :=
  (firstDedup ((rs.filter (·.cited)).map (·.query))).any
    (fun q => decide (2 ≤ citedCountForQuery rs q))

/-- Total citation count of one competitor name across the run
(a `competitorCiteCounts` entry). -/
def competitorCiteCount (rs : List ValidationProbeResult) (name : Str) : Nat :=
  (rs.map (fun r => r.competitorsCited.count name)).sum

/-- Number of distinct competitors cited more often than the brand. -/
def penalizedCompetitorCount (rs : List ValidationProbeResult) : Nat :=
  (firstDedup (rs.flatMap (·.competitorsCited))).countP
    (fun nm => decide (citedCountOf rs < competitorCiteCount rs nm))

/-- Step 4 of `validateCitability` (aeo-scorer.ts lines 403–460): base rate,
the three bonuses, the per-competitor −10 penalties, clamp to `[0, 100]`
and round. -/
def scoreFromProbeResults (rs : List ValidationProbeResult) : ℤ :=
  let totalProbes := rs.length
  let citedCount := citedCountOf rs
  let base : ℚ := ((citedCount : ℚ) / totalProbes) * 100
  let s1 := base + (if hasPositiveSentiment rs then 10 else 0)
  let s2 := s1 + (if hasTopPosition rs then 15 else 0)
  let s3 := s2 + (if multiProviderCited rs then 10 else 0)
  let s4 := s3 - 10 * (penalizedCompetitorCount rs : ℚ)
  jsRound (min 100 (max 0 s4))

/-- `validateCitability` (aeo-scorer.ts lines 325–467). The brand, domain
and competitor arguments are consumed only by `detectCitation`, which is
folded into `env.respond`. -/
def validateCitability (env : Env) (content _brandName _brandDomain : Str)
    (keywords : List Str) (_competitors : List Competitor) : CitationValidationScore :=
  let probeQueries := extractProbeQueries content keywords 5
  if probeQueries = [] then ⟨0, 1/2, []⟩
  else
    let providers := selectProbeProviders env.enabledProviders 3
    if providers = [] then ⟨0, 1/2, []⟩
    else
      let probeResults := probeResultsOf env probeQueries providers
      if probeResults.length = 0 then ⟨0, 1/2, probeResults⟩
      else ⟨scoreFromProbeResults probeResults, 1/2, probeResults⟩

-- ---------------------------------------------------------------------------
-- Batch probe runner, per-probe provider loop (src/unnamed/part_003
-- lines 170–192)
-- ---------------------------------------------------------------------------

/-- Environment of one batch probe execution: the rate limiter's
`canMakeRequest` veto and the outcome of `executeProbeForProvider`
(`some cost` on success, `none` when the call throws). -/
structure BatchEnv where
  canMakeRequest : Provider → Bool
  callResult : Provider → Option ℚ

/-- Observable outcome of the per-probe provider loop of `runBatchProbes`:
which providers produced a stored citation result, which produced an error
entry, the accumulated cost, and the `probeSucceeded` flag. -/
structure ProbeLoopResult where
  records : List Provider
  errors : List (Str × Provider)
  totalCost : ℚ
  probeSucceeded : Bool
deriving DecidableEq, Repr

/-- The `for (const provider of availableProviders)` loop of
`runBatchProbes`: re-check the rate limit, call the provider inside
`try`/`catch`; a success stores a citation result and cost, a failure
appends an error entry tagged with the probe id and provider and the loop
continues with the next provider. -/
def runProbeProviders (env : BatchEnv) (probeId : Str) : List Provider → ProbeLoopResult
  | [] => ⟨[], [], 0, false⟩
  | p :: ps =>
    let rest := runProbeProviders env probeId ps
    if env.canMakeRequest p then
      match env.callResult p with
      | some cost =>
        ⟨p :: rest.records, rest.errors, cost + rest.totalCost, true⟩
      | none =>
        ⟨rest.records, (probeId, p) :: rest.errors, rest.totalCost, rest.probeSucceeded⟩
    else rest

-- ---------------------------------------------------------------------------
-- Structural scoring: markdown-stripping regexes (aeo-scorer.ts lines 113–160)
-- ---------------------------------------------------------------------------

/-- The backtick character (obtained from a string literal). -/
def backtickChar : Char := (str "`").headD ' '

/-- Length of a match of `/#{1,6}\s+/` starting at the head of `s`: one to
six hashes followed by at least one whitespace character, both maximal.
With more than six leading hashes every backtracking choice places a hash
where `\s` is required, so there is no match at this position. -/
def headingMarkLen (s : Str) : Option Nat :=
  let r := (s.takeWhile (· = '#')).length
  if r = 0 then none
  else
    let k := min r 6
    let w := ((s.drop k).takeWhile isWs).length
    if 0 < w ∧ k = r then some (k + w) else none

/-- Match of `/\*{1,2}([^*]+)\*{1,2}/` at the head of `s`: returns the
consumed length and the capture. One or two opening stars (a run of three
or more cannot match at this position), a maximal non-star run, one or two
closing stars (a longer closing run leaves its surplus in place). -/
def boldMatchAt (s : Str) : Option (Nat × Str) :=
  let r := (s.takeWhile (· = '*')).length
  if r = 0 ∨ 2 < r then none
  else
    let content := (s.drop r).takeWhile (· ≠ '*')
    if content = [] then none
    else
      let cRun := ((s.drop (r + content.length)).takeWhile (· = '*')).length
      if cRun = 0 then none
      else some (r + content.length + min 2 cRun, content)

/-- Match of `/\[([^\]]+)\]\([^)]+\)/` at the head of `s`: returns consumed
length and the link-text capture. -/
def linkMatchAt (s : Str) : Option (Nat × Str) :=
  match s with
  | '[' :: rest =>
    let cap := rest.takeWhile (· ≠ ']')
    if cap = [] then none
    else
      match rest.drop cap.length with
      | ']' :: '(' :: rest2 =>
        let url := rest2.takeWhile (· ≠ ')')
        if url = [] then none
        else
          match rest2.drop url.length with
          | ')' :: _ => some (1 + cap.length + 2 + url.length + 1, cap)
          | _ => none
      | _ => none
  | _ => none

/-- Index of the earliest occurrence of three consecutive copies of `ch`. -/
def findTripleOf (ch : Char) : Str → Option Nat
  | [] => none
  | c :: cs =>
    if c = ch ∧ cs.take 2 = [ch, ch] then some 0
    else (findTripleOf ch cs).map (· + 1)

/-- Match of the lazy fenced-code regex `` /```[\s\S]*?```/ `` at the head
of `s`: three backticks, the shortest gap, three backticks. -/
def codeFenceMatchAt (s : Str) : Option Nat :=
  if s.take 3 = [backtickChar, backtickChar, backtickChar] then
    (findTripleOf backtickChar (s.drop 3)).map (fun i => 3 + i + 3)
  else none

/-- Match of the inline-code regex `` /`[^`]+`/ `` at the head of `s`. -/
def inlineCodeMatchAt (s : Str) : Option Nat :=
  match s with
  | c :: rest =>
    if c = backtickChar then
      let content := rest.takeWhile (· ≠ backtickChar)
      if content = [] then none
      else
        match rest.drop content.length with
        | c2 :: _ => if c2 = backtickChar then some (1 + content.length + 1) else none
        | [] => none
    else none
  | [] => none

/-- Global replace with empty replacement: scan left to right, drop each
match, resume after it (`String.prototype.replace` with `g` flag). The fuel
argument only bounds the recursion; any fuel of at least the string length
plus one gives the replace semantics since every step consumes a
character. -/
def replaceAllDrop (matchAt : Str → Option Nat) : Nat → Str → Str
  | 0, s => s
  | _, [] => []
  | Nat.succ fuel, c :: cs =>
    match matchAt (c :: cs) with
    | some k => replaceAllDrop matchAt fuel ((c :: cs).drop k)
    | none => c :: replaceAllDrop matchAt fuel cs

/-- Global replace with the capture as replacement (`replace(…, "$1")`). -/
def replaceAllCap (matchAt : Str → Option (Nat × Str)) : Nat → Str → Str
  | 0, s => s
  | _, [] => []
  | Nat.succ fuel, c :: cs =>
    match matchAt (c :: cs) with
    | some (k, cap) => cap ++ replaceAllCap matchAt fuel ((c :: cs).drop k)
    | none => c :: replaceAllCap matchAt fuel cs

/-- The five-stage markdown-stripping pipeline shared by
`calculateStructuralScore` and `calculateReadabilityGrade`: heading marks,
bold/italic stars, links, fenced code, inline code. -/
def plainTextOf (body : Str) : Str :=
  let s1 := replaceAllDrop headingMarkLen (body.length + 1) body
  let s2 := replaceAllCap boldMatchAt (s1.length + 1) s1
  let s3 := replaceAllCap linkMatchAt (s2.length + 1) s2
  let s4 := replaceAllDrop codeFenceMatchAt (s3.length + 1) s3
  replaceAllDrop inlineCodeMatchAt (s4.length + 1) s4

-- ---------------------------------------------------------------------------
-- Structural scoring: line-anchored regex scanners (aeo-scorer.ts 146–294)
-- ---------------------------------------------------------------------------

/-- `$` of a multiline regex: end of input or just before a newline. -/
def dollarAt (s : Str) : Bool :=
  match s with
  | [] => true
  | c :: _ => c = '\n'

/-- Characters matched by `.` (anything but line terminators). -/
def isDotChar (c : Char) : Bool := ¬ (c = '\n' ∨ c = '\r')

/-- Matcher for a `\s+.+$` tail over `t`, trying the greedy whitespace
length `k` and backtracking downward; returns the consumed length. -/
def wsDotTailTry (t : Str) : Nat → Option Nat
  | 0 => none
  | Nat.succ kk =>
    let k := Nat.succ kk
    let content := (t.drop k).takeWhile isDotChar
    if content ≠ [] ∧ dollarAt (t.drop (k + content.length)) then some (k + content.length)
    else wsDotTailTry t kk

/-- `\s+.+$` at the head of `t` (whitespace tried greedily first). -/
def wsDotTail (t : Str) : Option Nat := wsDotTailTry t (t.takeWhile isWs).length

/-- Match of `/^#{1,6}\s+.+$/m` at a line-start position. -/
def headingLineMatchAt (s : Str) : Option Nat :=
  let r := (s.takeWhile (· = '#')).length
  if 1 ≤ r ∧ r ≤ 6 then (wsDotTail (s.drop r)).map (r + ·)
  else none

/-- Count the (non-overlapping, left-to-right) matches of
`/^#{1,6}\s+.+$/gm`: walk the string one character at a time, keeping track
of whether the current position is a line start; on a match, count it and
skip to the match end (`skip` counts characters still inside the match). -/
def countHeadingGo : Nat → Bool → Str → Nat
  | Nat.succ skip, _, _ :: cs => countHeadingGo skip false cs
  | Nat.succ _, _, [] => 0
  | 0, _, [] => 0
  | 0, atStart, c :: cs =>
    if atStart then
      match headingLineMatchAt (c :: cs) with
      | some k => 1 + countHeadingGo (k - 1) false cs
      | none => countHeadingGo 0 (c = '\n') cs
    else countHeadingGo 0 (c = '\n') cs

/-- `headingCount`: `body.match(/^#{1,6}\s+.+$/gm)` match count. -/
def headingCountOf (body : Str) : Nat := countHeadingGo 0 true body

/-- Match test of `/^[\s]*[-*+]\s+.+$/m` at a line-start position. -/
def bulletAt (s : Str) : Bool :=
  let w := (s.takeWhile isWs).length
  match s.drop w with
  | b :: rest =>
    (decide (b = '-') || decide (b = '*') || decide (b = '+')) && (wsDotTail rest).isSome
  | [] => false

/-- Match test of `/^[\s]*\d+[.)]\s+.+$/m` at a line-start position. -/
def numberedAt (s : Str) : Bool :=
  let w := (s.takeWhile isWs).length
  let t := s.drop w
  let d := (t.takeWhile (fun c => '0' ≤ c ∧ c ≤ '9')).length
  if d = 0 then false
  else
    match t.drop d with
    | p :: rest => (decide (p = '.') || decide (p = ')')) && (wsDotTail rest).isSome
    | [] => false

/-- Does some line-start position of the string satisfy `p`? (`^`-anchored
multiline regex as a test.) -/
def anyLineStart (p : Str → Bool) : Bool → Str → Bool
  | atStart, [] => atStart && p []
  | atStart, c :: cs => (atStart && p (c :: cs)) || anyLineStart p (c = '\n') cs

/-- `hasStructuredLists` (aeo-scorer.ts lines 201–202). -/
def hasStructuredListsOf (body : Str) : Bool :=
  anyLineStart bulletAt true body || anyLineStart numberedAt true body

-- ---------------------------------------------------------------------------
-- Structural scoring: FAQ detection (aeo-scorer.ts lines 169–171)
-- ---------------------------------------------------------------------------

/-- The keyword alternation `(faq|frequently\s+asked|common\s+questions)`
as a case-insensitive match-at-point test. -/
def faqKeywordAt (t : Str) : Bool :=
  startsWithCI (str "faq") t ||
    (match dropCI (str "frequently") t with
     | some u =>
       let u1 := u.dropWhile isWs
       decide (u1.length ≠ u.length) && startsWithCI (str "asked") u1
     | none => false) ||
    (match dropCI (str "common") t with
     | some u =>
       let u1 := u.dropWhile isWs
       decide (u1.length ≠ u.length) && startsWithCI (str "questions") u1
     | none => false)

/-- Unanchored scan for `/#{1,3}\s*(faq|frequently\s+asked|common\s+questions)/i`:
a match exists iff some `#` is followed (after optional whitespace) by the
keyword alternation — scanning every `#` position makes the `#{1,3}` prefix
count irrelevant. -/
def faqHashScan : Str → Bool
  | [] => false
  | c :: cs => (decide (c = '#') && faqKeywordAt (cs.dropWhile isWs)) || faqHashScan cs

/-- `\w` of JavaScript regexes. -/
def isWordChar (c : Char) : Bool :=
  ('a' ≤ c ∧ c ≤ 'z') ∨ ('A' ≤ c ∧ c ≤ 'Z') ∨ ('0' ≤ c ∧ c ≤ '9') ∨ c = '_'

/-- Unanchored scan for `/\bQ:\s/i`: a `Q`/`q` preceded by a non-word
character (or the string start), then `:` and one whitespace character. -/
def qColonScan (prev : Option Char) : Str → Bool
  | [] => false
  | c :: cs =>
    ((decide (c = 'Q') || decide (c = 'q')) &&
      (match prev with
       | some p => ! isWordChar p
       | none => true) &&
      (match cs with
       | c2 :: c3 :: _ => decide (c2 = ':') && isWs c3
       | _ => false)) || qColonScan (some c) cs

-- ---------------------------------------------------------------------------
-- Structural scoring: first paragraph (aeo-scorer.ts lines 177–198)
-- ---------------------------------------------------------------------------

/-- Matcher for a `\s+.+` tail (no `$`, as in the heading-removal regex
`/^#{1,6}\s+.+\n*/m`). -/
def wsDotTryNoDollar (t : Str) : Nat → Option Nat
  | 0 => none
  | Nat.succ kk =>
    let k := Nat.succ kk
    let content := (t.drop k).takeWhile isDotChar
    if content ≠ [] then some (k + content.length) else wsDotTryNoDollar t kk

/-- Match of `/^#{1,6}\s+.+\n*/m` at a line-start position: heading marks,
content, then the greedy newline run. -/
def headingRemovalMatchAt (s : Str) : Option Nat :=
  let r := (s.takeWhile (· = '#')).length
  if 1 ≤ r ∧ r ≤ 6 then
    match wsDotTryNoDollar (s.drop r) ((s.drop r).takeWhile isWs).length with
    | some k =>
      let nlRun := ((s.drop (r + k)).takeWhile (· = '\n')).length
      some (r + k + nlRun)
    | none => none
  else none

/-- `body.replace(/^#{1,6}\s+.+\n*/m, "")`: remove the first heading-line
match (non-global replace). -/
def removeFirstHeadingGo : Bool → Str → Str
  | _, [] => []
  | atStart, c :: cs =>
    if atStart then
      match headingRemovalMatchAt (c :: cs) with
      | some k => (c :: cs).drop k
      | none => c :: removeFirstHeadingGo (c = '\n') cs
    else c :: removeFirstHeadingGo (c = '\n') cs

/-- The capture of `/^(?!#|\s*$)(.{1,500})/m` at one line-start position:
fail on a leading `#`, on a blank-to-end-of-line position (`\s*$`), and
when `.` cannot match even one character. -/
def firstParaLineCapture (t : Str) : Option Str :=
  let v := t.takeWhile isWs
  if (match t with
      | '#' :: _ => true
      | _ => false) then none
  else if '\n' ∈ v ∨ t.dropWhile isWs = [] then none
  else
    let content := (t.takeWhile isDotChar).take 500
    if content = [] then none else some content

/-- First line-start position whose capture succeeds. -/
def firstParaScan : Bool → Str → Option Str
  | _, [] => none
  | atStart, c :: cs =>
    match (if atStart then firstParaLineCapture (c :: cs) else none) with
    | some cap => some cap
    | none => firstParaScan (c = '\n') cs

/-- `firstParagraph` of `calculateStructuralScore`: strip front matter,
remove the first heading line, take the first substantive line's leading
500 characters, lowercased (empty when there is none). -/
def firstParagraphOf (body : Str) : Str :=
  match firstParaScan true (removeFirstHeadingGo true (stripFrontMatter body)) with
  | some cap => toLowerStr cap
  | none => []

-- ---------------------------------------------------------------------------
-- Structural scoring: word-boundary matching and counting
-- ---------------------------------------------------------------------------

/-- `\b` between two (optional) characters: exactly one side is a `\w`
character, positions outside the string counting as non-word. -/
def boundaryOk (a b : Option Char) : Bool :=
  (match a with
   | some c => isWordChar c
   | none => false) !=
  (match b with
   | some c => isWordChar c
   | none => false)

/-- Count of non-overlapping matches of `/\bpat\b/g` (`pat` a non-empty
literal after `escapeRegex`): on a match, skip its length; otherwise
advance one character, as the regex engine's `lastIndex` does. -/
def countWBGo (pat : Str) : Nat → Option Char → Str → Nat
  | Nat.succ skip, _, c :: cs => countWBGo pat skip (some c) cs
  | Nat.succ _, _, [] => 0
  | 0, _, [] => 0
  | 0, prev, c :: cs =>
    if (c :: cs).take pat.length = pat ∧ boundaryOk prev (some c) ∧
        boundaryOk pat.getLast? (((c :: cs).drop pat.length).head?) then
      1 + countWBGo pat (pat.length - 1) (some c) cs
    else countWBGo pat 0 (some c) cs

/-- Count of `/\bpat\b/g` matches in `s` for a non-empty literal `pat`. -/
def countWB (pat s : Str) : Nat := countWBGo pat 0 none s

/-- Number of word-boundary positions of `s`: the match count of the
zero-length pattern `/\b\b/g` that an empty brand name produces. -/
def countBoundariesGo (prev : Option Char) : Str → Nat
  | [] =>
    (if (match prev with
         | some c => isWordChar c
         | none => false) then 1 else 0)
  | c :: cs => (if boundaryOk prev (some c) then 1 else 0) + countBoundariesGo (some c) cs

/-- Boundary-position count (empty-pattern corner of the brand regex). -/
def countBoundaries (s : Str) : Nat := countBoundariesGo none s

/-- One of the nine `directAnswerPatterns` holds in the first paragraph
(each is a word-bounded literal). -/
def directAnswerPatternsHold (fp : Str) : Bool :=
  decide (0 < countWB (str "is") fp) || decide (0 < countWB (str "are") fp) ||
  decide (0 < countWB (str "the best") fp) || decide (0 < countWB (str "refers to") fp) ||
  decide (0 < countWB (str "means") fp) || decide (0 < countWB (str "defined as") fp) ||
  decide (0 < countWB (str "provides") fp) || decide (0 < countWB (str "offers") fp) ||
  decide (0 < countWB (str "enables") fp)

/-- Substring test (`String.prototype.includes`). -/
def containsStr (pat : Str) : Str → Bool
  | [] => decide (pat = [])
  | c :: cs => decide ((c :: cs).take pat.length = pat) || containsStr pat cs

-- ---------------------------------------------------------------------------
-- Readability (aeo-scorer.ts lines 84–140)
-- ---------------------------------------------------------------------------

/-- The vowels of the syllable heuristic. -/
def isVowelChar (c : Char) : Bool :=
  c = 'a' ∨ c = 'e' ∨ c = 'i' ∨ c = 'o' ∨ c = 'u' ∨ c = 'y'

/-- Number of maximal runs of characters satisfying `p`
(`match(/[aeiouy]+/g)` length). -/
def countRunsGo (p : Char → Bool) (inRun : Bool) : Str → Nat
  | [] => 0
  | c :: cs =>
    if p c then (if inRun then 0 else 1) + countRunsGo p true cs
    else countRunsGo p false cs

/-- `countSyllables` (aeo-scorer.ts lines 88–107). -/
def countSyllables (word : Str) : Nat :=
  let cleaned := (toLowerStr word).filter (fun c => 'a' ≤ c ∧ c ≤ 'z')
  if cleaned.length ≤ 2 then 1
  else
    let groups := countRunsGo isVowelChar false cleaned
    let count0 := if groups = 0 then 1 else groups
    let count1 := if endsWithStr (str "e") cleaned ∧ 1 < count0 then count0 - 1 else count0
    let count2 :=
      if endsWithStr (str "le") cleaned ∧ 2 < cleaned.length ∧
          ¬ isVowelChar (cleaned.getD (cleaned.length - 3) ' ') then
        count1 + 1
      else count1
    max 1 count2

/-- Sentence separators `[.!?]`. -/
def isSentSep (c : Char) : Bool := c = '.' ∨ c = '!' ∨ c = '?'

/-- `calculateReadabilityGrade` (aeo-scorer.ts lines 113–140):
Flesch–Kincaid-style grade over the markdown-stripped text, clamped below
at 0 and rounded to one decimal. -/
def calculateReadabilityGrade (text : Str) : ℚ :=
  let plainText := trimStr (plainTextOf text)
  let words := splitWords plainText
  let wordCount := words.length
  if wordCount = 0 then 0
  else
    let sentenceCount :=
      max 1 ((plainText.splitOnP isSentSep).filter (fun s => trimStr s ≠ [])).length
    let totalSyllables := (words.map countSyllables).sum
    let grade : ℚ := (39 : ℚ)/100 * ((wordCount : ℚ) / sentenceCount) +
      (118 : ℚ)/10 * ((totalSyllables : ℚ) / wordCount) - (1559 : ℚ)/100
    (jsRound (max 0 grade * 10) : ℚ) / 10

-- ---------------------------------------------------------------------------
-- calculateStructuralScore (aeo-scorer.ts lines 146–294)
-- ---------------------------------------------------------------------------

/-- The `factors` record of `StructuralScore`. -/
structure StructuralFactors where
  hasSchemaMarkup : Bool
  hasFaqSection : Bool
  headingCount : Nat
  hasDirectAnswers : Bool
  hasStructuredLists : Bool
  keywordDensity : ℚ
  brandMentionCount : Nat
  wordCount : Nat
  readabilityGrade : ℚ
deriving DecidableEq, Repr

/-- `StructuralScore` of aeo-scorer.ts. -/
structure StructuralScore where
  score : ℤ
  weight : ℚ
  factors : StructuralFactors
deriving DecidableEq, Repr

/-- `calculateStructuralScore` (aeo-scorer.ts lines 146–294). Keyword and
brand regexes are `escapeRegex`-escaped literals, hence modelled as literal
word-bounded matching; an empty brand name degenerates to the zero-length
pattern `/\b\b/gi`, counted as boundary positions. -/
def calculateStructuralScore (body schemaMarkup brandName : Str)
    (keywords : List Str) : StructuralScore :=
  let lowerBody := toLowerStr body
  let wordCount := (splitWords (plainTextOf body)).length
  let hasSchemaMarkup :=
    decide (trimStr schemaMarkup ≠ []) &&
      (containsStr (str "\"@type\"") schemaMarkup ||
        containsStr (str "@context") schemaMarkup)
  let hasFaqSection := faqHashScan body || qColonScan none body
  let headingCount := headingCountOf body
  let hasDirectAnswers := directAnswerPatternsHold (firstParagraphOf body)
  let hasStructuredLists := hasStructuredListsOf body
  let totalKeywordOccurrences :=
    (keywords.map (fun kw =>
      let keywordLower := trimStr (toLowerStr kw)
      if keywordLower = [] then 0 else countWB keywordLower lowerBody)).sum
  let keywordDensity : ℚ :=
    if 0 < wordCount then
      (jsRound (((totalKeywordOccurrences : ℚ) / wordCount) * 100 * 100) : ℚ) / 100
    else 0
  let brandMentionCount :=
    if brandName = [] then countBoundaries lowerBody
    else countWB (toLowerStr brandName) lowerBody
  let readabilityGrade := calculateReadabilityGrade body
  let s1 : ℚ := if hasSchemaMarkup then 15 else 0
  let s2 := s1 + (if hasFaqSection then 10 else 0)
  let s3 := s2 + min 15 ((headingCount : ℚ) * 5)
  let s4 := s3 + (if hasDirectAnswers then 15 else 0)
  let s5 := s4 + (if hasStructuredLists then 5 else 0)
  let s6 := s5 +
    (if 1 ≤ keywordDensity ∧ keywordDensity ≤ 3 then 10
     else if 0 < keywordDensity ∧ keywordDensity < 1 then
       (jsRound (keywordDensity * 10) : ℚ)
     else if 3 < keywordDensity ∧ keywordDensity ≤ 5 then
       (jsRound (10 - (keywordDensity - 3) * 3) : ℚ)
     else 0)
  let s7 := s6 + min 5 ((brandMentionCount : ℚ) * (5/2))
  let s8 := s7 +
    (if 800 ≤ wordCount ∧ wordCount ≤ 2000 then 15
     else if 500 ≤ wordCount ∧ wordCount < 800 then
       (jsRound ((wordCount : ℚ) / 800 * 15) : ℚ)
     else if 2000 < wordCount ∧ wordCount ≤ 3000 then
       (jsRound (15 - ((wordCount : ℚ) - 2000) / 1000 * 10) : ℚ)
     else if 0 < wordCount ∧ wordCount < 500 then
       (jsRound ((wordCount : ℚ) / 800 * 15) : ℚ)
     else 0)
  let s9 := s8 +
    (if 8 ≤ readabilityGrade ∧ readabilityGrade ≤ 12 then 10
     else if 5 ≤ readabilityGrade ∧ readabilityGrade < 8 then
       (jsRound ((readabilityGrade - 5) / 3 * 10) : ℚ)
     else if 12 < readabilityGrade ∧ readabilityGrade ≤ 16 then
       (jsRound (10 - (readabilityGrade - 12) / 4 * 10) : ℚ)
     else 0)
  { score := jsRound (min 100 (max 0 s9))
    weight := 1/5
    factors :=
      { hasSchemaMarkup := hasSchemaMarkup
        hasFaqSection := hasFaqSection
        headingCount := headingCount
        hasDirectAnswers := hasDirectAnswers
        hasStructuredLists := hasStructuredLists
        keywordDensity := keywordDensity
        brandMentionCount := brandMentionCount
        wordCount := wordCount
        readabilityGrade := readabilityGrade } }

-- ---------------------------------------------------------------------------
-- scoreContent (aeo-scorer.ts lines 703–776)
-- ---------------------------------------------------------------------------

/-- The provider's string name (the `provider` field of stored results). -/
def providerName : Provider → Str
  | .google => str "google"
  | .openai => str "openai"
  | .perplexity => str "perplexity"
  | .anthropic => str "anthropic"

/-- `AEOScore` of aeo-scorer.ts. The `recommendations` list
(`generateRecommendations`) is advisory text derived from the same three
sub-scores and is outside the verified claims; it is omitted from the
model. -/
structure AEOScore where
  overall : ℤ
  structural : StructuralScore
  citationValidation : CitationValidationScore
  competitiveGap : CompetitiveGapScore
deriving DecidableEq, Repr

/-- `scoreContent` (aeo-scorer.ts lines 703–776): structural score, then
citation validation (skipped on request), competitive gap over the probe
results, and the weighted rounded composite. -/
def scoreContent (env : Env) (body schemaMarkup brandName brandDomain : Str)
    (keywords : List Str) (competitors : List Competitor)
    (skipValidation : Bool) : AEOScore :=
  let structural := calculateStructuralScore body schemaMarkup brandName keywords
  let citationValidation :=
    if skipValidation then ⟨0, 1/2, []⟩
    else validateCitability env body brandName brandDomain keywords competitors
  let citationResults : List CitationResult :=
    citationValidation.probeResults.map
      (fun r => ⟨r.query, providerName r.provider, r.cited, r.competitorsCited⟩)
  let competitiveGap := analyzeCompetitiveGap brandName brandDomain competitors citationResults
  let overall := jsRound ((structural.score : ℚ) * structural.weight +
    (citationValidation.score : ℚ) * citationValidation.weight +
    (competitiveGap.score : ℚ) * competitiveGap.weight)
  ⟨overall, structural, citationValidation, competitiveGap⟩

-- ---------------------------------------------------------------------------
-- Knowledge graph entity resolution
-- (src/src/lib/graph/knowledge-graph.ts lines 178–276)
-- ---------------------------------------------------------------------------

/-- An `Entity` node of the graph store. The `type` and `domain` properties
are written but never read by resolution and are omitted from the model. -/
structure GEntity where
  id : Str
  canonicalName : Str
deriving DecidableEq, Repr

/-- An `ALIAS_OF` edge (alias node → target node, tagged with the provider
that produced the variant). -/
structure AliasEdge where
  fromId : Str
  toId : Str
  source : Str
deriving DecidableEq, Repr

/-- The graph store state: `Entity` rows in insertion order (the order in
which an unordered full scan returns them), the `ALIAS_OF` edges, and a
counter supplying the fresh `alias-…` node ids (`Date.now()` plus a random
suffix in the source — the model only relies on their freshness). -/
structure GraphState where
  entities : List GEntity
  aliasEdges : List AliasEdge
  counter : Nat
deriving DecidableEq, Repr

/-- The graph before any upsert. -/
def emptyGraph : GraphState := ⟨[], [], 0⟩

/-- Worker for `slugify`: collapse each run of non-alphanumerics to one
dash. -/
def slugifyGo (inRun : Bool) : Str → Str
  | [] => []
  | c :: cs =>
    if isAlnumLower c then c :: slugifyGo false cs
    else if inRun then slugifyGo true cs
    else '-' :: slugifyGo true cs

/-- `slugify` (knowledge-graph.ts lines 576–581): lowercase, collapse
non-alphanumeric runs to `-`, then `replace(/^-|-$/g, "")` (one leading and
one trailing dash — after collapsing, runs are single dashes, so this
strips all of them). -/
def slugify (s : Str) : Str :=
  let t := slugifyGo false (toLowerStr s)
  let t1 :=
    match t with
    | '-' :: rest => rest
    | _ => t
  match t1.getLast? with
  | some '-' => t1.dropLast
  | _ => t1

/-- `EntityResolution` as `buildResolution` actually populates it: the
`canonicalName` field receives the matched node's *id*, and `aliases` the
lowercased names of the nodes with an `ALIAS_OF` edge into that node.
The `providers` field (from `CITED_IN` edges) is never read by
`upsertEntity` and is omitted. -/
structure EntityResolution where
  canonicalName : Str
  aliases : List Str
deriving DecidableEq, Repr

/-- `buildResolution` (knowledge-graph.ts lines 256–276). -/
def buildResolution (s : GraphState) (entityId : Str) : EntityResolution :=
  { canonicalName := entityId
    aliases :=
      (s.aliasEdges.filter (fun e => e.toId == entityId)).map (fun e =>
        toLowerStr ((((s.entities.find? (fun n => n.id == e.fromId)).map
          (·.canonicalName))).getD [])) }

/-- `resolveEntity` (knowledge-graph.ts lines 222–254): exact
case-insensitive match over *all* entity rows first (the code takes the
first returned row), then a substring containment match in either
direction (`LIMIT 1`). -/
def resolveEntity (s : GraphState) (name : Str) : Option EntityResolution :=
  let normalized := trimStr (toLowerStr name)
  match s.entities.find? (fun e => toLowerStr e.canonicalName == normalized) with
  | some e => some (buildResolution s e.id)
  | none =>
    match s.entities.find? (fun e =>
        containsStr (toLowerStr e.canonicalName) normalized ||
        containsStr normalized (toLowerStr e.canonicalName)) with
    | some e => some (buildResolution s e.id)
    | none => none

/-- `upsertEntity` (knowledge-graph.ts lines 178–216). When a resolution
exists and the lowercased submitted name is not among its aliases, a fresh
alias node carrying the submitted name is created with an `ALIAS_OF` edge
to the resolved node, and the resolved node's id is returned; otherwise a
canonical node `entity-{slug}` is merged (created, or its name updated)
and its id returned. The unused `type`/`domain` properties are dropped. -/
def upsertEntity (s : GraphState) (name source : Str) : Str × GraphState :=
  match resolveEntity s name with
  | some existing =>
    if toLowerStr name ∈ existing.aliases then (existing.canonicalName, s)
    else
      let aliasId := str "alias-" ++ Nat.toDigits 10 s.counter
      (existing.canonicalName,
        { entities := s.entities ++ [⟨aliasId, name⟩]
          aliasEdges := s.aliasEdges ++ [⟨aliasId, existing.canonicalName, source⟩]
          counter := s.counter + 1 })
  | none =>
    let id := str "entity-" ++ slugify name
    (id,
      { s with entities :=
          if (s.entities.find? (fun e => e.id == id)).isSome then
            s.entities.map (fun e =>
              if e.id == id then { e with canonicalName := name } else e)
          else s.entities ++ [⟨id, name⟩] })

/-- Number of `ALIAS_OF` edges whose alias node carries the given literal
name. -/
def aliasEdgesForName (s : GraphState) (name : Str) : Nat :=
  (s.aliasEdges.filter (fun e =>
    (s.entities.find? (fun n => n.id == e.fromId)).map (·.canonicalName) == some name)).length

-- ===========================================================================
-- Theorems
-- ===========================================================================

-- ---------------------------------------------------------------------------
-- C9: dominant sentiment of a competitor profile
-- ---------------------------------------------------------------------------

/-- A probe result in which the competitor `Rival` is cited with the given
sentiment at position 1 (used to exhibit the negative–neutral tie). -/
def exResultC9 (s : Sentiment) : ProbeResult :=
  ⟨str "best crm", str "best-of", str "openai", ⟨false, none, none⟩,
    [(str "Rival", ⟨true, some s, some 1⟩)]⟩

/-- Four probes: `Rival` cited twice with negative and twice with neutral
sentiment. -/
def exResultsC9 : List ProbeResult :=
  [exResultC9 .negative, exResultC9 .negative, exResultC9 .neutral, exResultC9 .neutral]

/-- C9 counterexample: the claim says a tie between negative and neutral
yields neutral; on a 2–2 negative/neutral tie over cited occurrences (no
positives), `buildCompetitorProfile` reports dominant sentiment *negative*
(`computeAvgSentiment` prefers negative whenever `neg > pos ∧ neg ≥ neu`). -/
theorem C9_counterexample :
    (buildCompetitorProfile ⟨str "Rival", str "rival.com"⟩ exResultsC9
        [str "best-of"]).avgSentiment = Sentiment.negative ∧
    (collectedSentiments (str "Rival") exResultsC9).count Sentiment.negative = 2 ∧
    (collectedSentiments (str "Rival") exResultsC9).count Sentiment.neutral = 2 ∧
    (collectedSentiments (str "Rival") exResultsC9).count Sentiment.positive = 0 ∧
    Sentiment.negative ≠ Sentiment.neutral := by
  decide

/-- C9 (amended): the dominant sentiment is the majority vote over the
sentiments of the competitor's cited occurrences, the empty vote is
neutral, ties involving positive go to positive, and a negative–neutral
tie (with strictly fewer positives) goes to negative. -/
theorem C9_dominant_sentiment (competitor : CompetitorInput)
    (results : List ProbeResult) (cats : List Str) :
    (collectedSentiments competitor.name results = [] →
      (buildCompetitorProfile competitor results cats).avgSentiment = .neutral) ∧
    (collectedSentiments competitor.name results ≠ [] →
      (collectedSentiments competitor.name results).count Sentiment.negative ≤
        (collectedSentiments competitor.name results).count Sentiment.positive →
      (collectedSentiments competitor.name results).count Sentiment.neutral ≤
        (collectedSentiments competitor.name results).count Sentiment.positive →
      (buildCompetitorProfile competitor results cats).avgSentiment = .positive) ∧
    ((collectedSentiments competitor.name results).count Sentiment.positive <
        (collectedSentiments competitor.name results).count Sentiment.negative →
      (collectedSentiments competitor.name results).count Sentiment.neutral ≤
        (collectedSentiments competitor.name results).count Sentiment.negative →
      (buildCompetitorProfile competitor results cats).avgSentiment = .negative) ∧
    ((collectedSentiments competitor.name results).count Sentiment.positive <
        (collectedSentiments competitor.name results).count Sentiment.neutral →
      (collectedSentiments competitor.name results).count Sentiment.negative <
        (collectedSentiments competitor.name results).count Sentiment.neutral →
      (buildCompetitorProfile competitor results cats).avgSentiment = .neutral) := by
  have hproj : (buildCompetitorProfile competitor results cats).avgSentiment =
      computeAvgSentiment (collectedSentiments competitor.name results) := rfl
  rw [hproj]
  set s := collectedSentiments competitor.name results with hs
  unfold computeAvgSentiment
  refine ⟨fun h => by simp [h], fun h1 h2 h3 => ?_, fun h1 h2 => ?_, fun h1 h2 => ?_⟩
  · rw [if_neg h1, if_pos ⟨h2, h3⟩]
  · have hne : s ≠ [] := by
      intro h
      rw [h] at h1
      simp at h1
    rw [if_neg hne, if_neg (by omega), if_pos ⟨h1, h2⟩]
  · have hne : s ≠ [] := by
      intro h
      rw [h] at h1
      simp at h1
    rw [if_neg hne, if_neg (by omega), if_neg (by omega)]

/-- C9 witness: the amended theorem applied at concrete inputs — the empty
case and the 2–2 negative–neutral tie. -/
theorem C9_dominant_sentiment_witness :
    (buildCompetitorProfile ⟨str "Rival", str "rival.com"⟩ [] []).avgSentiment = .neutral ∧
    (buildCompetitorProfile ⟨str "Rival", str "rival.com"⟩ exResultsC9
        [str "best-of"]).avgSentiment = .negative :=
  ⟨(C9_dominant_sentiment ⟨str "Rival", str "rival.com"⟩ [] []).1 (by decide),
   (C9_dominant_sentiment ⟨str "Rival", str "rival.com"⟩ exResultsC9 [str "best-of"]).2.2.1
     (by decide) (by decide)⟩

-- ---------------------------------------------------------------------------
-- C2: competitive gap score rule
-- ---------------------------------------------------------------------------

/-- C2: `analyzeCompetitiveGap` returns score 50 with the
insufficient-data gap analysis on an empty result set; on a non-empty
result set it returns 100 when the brand's citation rate is at least the
average competitor citation rate, and otherwise
`max(0, round(100 − (avgCompetitorRate − brandRate) × 1.5))`. -/
theorem C2_competitive_gap (brandName brandDomain : Str) (competitors : List Competitor)
    (rs : List CitationResult) :
    (rs = [] → analyzeCompetitiveGap brandName brandDomain competitors rs =
      { score := 50, weight := 3/10, yourCitationRate := 0, avgCompetitorCitationRate := 0,
        topCompetitor := none, topCompetitorRate := 0, gapAnalysis := .insufficientData }) ∧
    (rs ≠ [] →
      ((analyzeCompetitiveGap brandName brandDomain competitors rs).avgCompetitorCitationRate ≤
          (analyzeCompetitiveGap brandName brandDomain competitors rs).yourCitationRate →
        (analyzeCompetitiveGap brandName brandDomain competitors rs).score = 100) ∧
      ((analyzeCompetitiveGap brandName brandDomain competitors rs).yourCitationRate <
          (analyzeCompetitiveGap brandName brandDomain competitors rs).avgCompetitorCitationRate →
        (analyzeCompetitiveGap brandName brandDomain competitors rs).score =
          max 0 (jsRound (100 -
            ((analyzeCompetitiveGap brandName brandDomain competitors rs).avgCompetitorCitationRate -
              (analyzeCompetitiveGap brandName brandDomain competitors rs).yourCitationRate) *
            (3/2))))) := by
  constructor
  · intro h
    simp [analyzeCompetitiveGap, h]
  · intro h
    have hproj : analyzeCompetitiveGap brandName brandDomain competitors rs =
        { score := competitiveGapScoreValue (yourCitationRateOf rs)
            (avgCompetitorRateOf competitors rs)
          weight := 3/10
          yourCitationRate := yourCitationRateOf rs
          avgCompetitorCitationRate := avgCompetitorRateOf competitors rs
          topCompetitor := (sortedRatesOf competitors rs).head?.map Prod.fst
          topCompetitorRate :=
            match (sortedRatesOf competitors rs).head? with
            | some t => t.2
            | none => 0
          gapAnalysis := gapAnalysisOf (yourCitationRateOf rs)
            (avgCompetitorRateOf competitors rs) (sortedRatesOf competitors rs).head? } := by
      simp [analyzeCompetitiveGap, h]
    rw [hproj]
    constructor
    · intro hle
      simp only at hle ⊢
      unfold competitiveGapScoreValue
      rw [if_pos hle]
    · intro hlt
      simp only at hlt ⊢
      unfold competitiveGapScoreValue
      rw [if_neg (not_le.mpr hlt)]

/-- Concrete result lists for the C2 witness: the brand cited in the single
result (rate 100 vs 0), and only the competitor cited (rate 0 vs 100). -/
def exGapRs1 : List CitationResult := [⟨str "best crm", str "openai", true, []⟩]

/-- See `exGapRs1`. -/
def exGapRs2 : List CitationResult := [⟨str "best crm", str "openai", false, [str "Rival"]⟩]

section
attribute [local semireducible] Rat.mul Rat.inv Rat.add Rat.sub

/-- C2 witness: the theorem applied at an empty result set, at a result set
where the brand leads (score 100), and at one where it trails (the
`max(0, round(100 − gap × 1.5))` branch). -/
theorem C2_competitive_gap_witness :
    analyzeCompetitiveGap (str "Acme") (str "acme.com") [⟨str "Rival", str "rival.com"⟩] [] =
      { score := 50, weight := 3/10, yourCitationRate := 0, avgCompetitorCitationRate := 0,
        topCompetitor := none, topCompetitorRate := 0, gapAnalysis := .insufficientData } ∧
    (analyzeCompetitiveGap (str "Acme") (str "acme.com")
        [⟨str "Rival", str "rival.com"⟩] exGapRs1).score = 100 ∧
    (analyzeCompetitiveGap (str "Acme") (str "acme.com")
        [⟨str "Rival", str "rival.com"⟩] exGapRs2).score =
      max 0 (jsRound (100 -
        ((analyzeCompetitiveGap (str "Acme") (str "acme.com")
            [⟨str "Rival", str "rival.com"⟩] exGapRs2).avgCompetitorCitationRate -
          (analyzeCompetitiveGap (str "Acme") (str "acme.com")
            [⟨str "Rival", str "rival.com"⟩] exGapRs2).yourCitationRate) * (3/2))) :=
  ⟨(C2_competitive_gap (str "Acme") (str "acme.com") [⟨str "Rival", str "rival.com"⟩] []).1 rfl,
   ((C2_competitive_gap (str "Acme") (str "acme.com") [⟨str "Rival", str "rival.com"⟩]
      exGapRs1).2 (by decide)).1 (by decide),
   ((C2_competitive_gap (str "Acme") (str "acme.com") [⟨str "Rival", str "rival.com"⟩]
      exGapRs2).2 (by decide)).2 (by decide)⟩

end

-- ---------------------------------------------------------------------------
-- C4: degenerate inputs of validateCitability
-- ---------------------------------------------------------------------------

/-- C4: with zero extracted queries or zero enabled providers,
`validateCitability` returns score 0 with an empty probe-result set (the
function is total — no error path exists in the model, mirroring the
source's early returns). -/
theorem C4_empty_extraction (env : Env) (content brandName brandDomain : Str)
    (keywords : List Str) (competitors : List Competitor)
    (h : extractProbeQueries content keywords 5 = [] ∨ env.enabledProviders = []) :
    validateCitability env content brandName brandDomain keywords competitors =
      ⟨0, 1/2, []⟩ := by
  unfold validateCitability
  rcases h with h | h
  · rw [if_pos h]
  · by_cases hq : extractProbeQueries content keywords 5 = []
    · rw [if_pos hq]
    · rw [if_neg hq]
      have hsel : selectProbeProviders env.enabledProviders 3 = [] := by
        simp [selectProbeProviders, h]
      rw [if_pos hsel]

/-- An environment with no providers enabled. -/
def exEnvC4 : Env := ⟨[], fun _ _ => none⟩

/-- C4 witness: the theorem applied to empty content (no extractable
queries) and to an environment with no enabled providers. -/
theorem C4_empty_extraction_witness :
    validateCitability exEnvC4 (str "") (str "Acme") (str "acme.com") [] [] =
      ⟨0, 1/2, []⟩ ∧
    validateCitability exEnvC4 (str "## Best CRM Tools") (str "Acme") (str "acme.com") [] [] =
      ⟨0, 1/2, []⟩ :=
  ⟨C4_empty_extraction exEnvC4 (str "") (str "Acme") (str "acme.com") [] [] (Or.inl (by decide)),
   C4_empty_extraction exEnvC4 (str "## Best CRM Tools") (str "Acme") (str "acme.com") [] []
     (Or.inr rfl)⟩

-- ---------------------------------------------------------------------------
-- C5: provider-failure isolation
-- ---------------------------------------------------------------------------

/-- Two enabled providers; `google` answers citing the brand at position 1
with positive sentiment; every `openai` call throws. -/
def exFailEnv : Env :=
  ⟨[.google, .openai], fun _ p =>
    match p with
    | .google => some ⟨true, some 1, some (str "positive"), []⟩
    | _ => none⟩

section
attribute [local semireducible] Rat.mul Rat.inv Rat.add Rat.sub

/-- C5 counterexample: the claim says a failed provider call is recorded as
an *absent* result that does not contribute to downstream aggregation. In
`validateCitability` the failed `openai` call is recorded as a present
not-cited probe result: the result set has two entries, and the score is
75 (base 1/2 × 100 = 50, +10 sentiment, +15 position) — the failed call
counts in the denominator, whereas an absent result would give base 100. -/
theorem C5_counterexample :
    (validateCitability exFailEnv (str "## Best CRM Tools") (str "Acme") (str "acme.com")
        [] []).probeResults =
      [⟨str "What are best CRM Tools?", .google, true, some 1, some (str "positive"), []⟩,
       ⟨str "What are best CRM Tools?", .openai, false, none, none, []⟩] ∧
    (validateCitability exFailEnv (str "## Best CRM Tools") (str "Acme") (str "acme.com")
        [] []).score = 75 := by
  decide

end

theorem probeResultsOf_length (env : Env) (qs : List ExtractedQuery)
    (ps : List Provider) : (probeResultsOf env qs ps).length = qs.length * ps.length := by
  induction qs with
  | nil => simp [probeResultsOf]
  | cons q qs ih =>
    simp only [probeResultsOf, List.flatMap_cons, List.length_append, List.length_map,
      List.length_cons] at ih ⊢
    rw [ih]
    ring

theorem validateCitability_probeResults (env : Env) (content brandName brandDomain : Str)
    (keywords : List Str) (competitors : List Competitor)
    (hq : extractProbeQueries content keywords 5 ≠ [])
    (hp : selectProbeProviders env.enabledProviders 3 ≠ []) :
    (validateCitability env content brandName brandDomain keywords competitors).probeResults =
      probeResultsOf env (extractProbeQueries content keywords 5)
        (selectProbeProviders env.enabledProviders 3) := by
  unfold validateCitability
  rw [if_neg hq, if_neg hp]
  dsimp only
  split <;> rfl

theorem runProbeProviders_spec (benv : BatchEnv) (probeId : Str)
    (providers : List Provider) :
    (runProbeProviders benv probeId providers).records =
      providers.filter (fun p => benv.canMakeRequest p && (benv.callResult p).isSome) ∧
    (runProbeProviders benv probeId providers).errors =
      (providers.filter (fun p => benv.canMakeRequest p && (benv.callResult p).isNone)).map
        (fun p => (probeId, p)) := by
  induction providers with
  | nil => exact ⟨rfl, rfl⟩
  | cons p ps ih =>
    unfold runProbeProviders
    by_cases hc : benv.canMakeRequest p
    · cases hcall : benv.callResult p with
      | some cost =>
        simp [hc, hcall, List.filter_cons, ih.1, ih.2]
      | none =>
        simp [hc, hcall, List.filter_cons, ih.1, ih.2]
    · simp [hc, List.filter_cons, ih.1, ih.2]

/-- C5 (amended): a provider failure in a probe fan-out is recovered
locally — sibling calls still run and the enclosing operation returns
normally — but in `validateCitability` the failed call is recorded as a
*present* not-cited probe result that still counts toward the total
probe × provider pairs, while in `runBatchProbes` the failed call stores no
citation result and instead appends an error entry, with later providers
unaffected. -/
theorem C5_failure_isolation (env : Env) (content brandName brandDomain : Str)
    (keywords : List Str) (competitors : List Competitor) :
    (extractProbeQueries content keywords 5 ≠ [] →
      selectProbeProviders env.enabledProviders 3 ≠ [] →
      (validateCitability env content brandName brandDomain keywords
          competitors).probeResults.length =
        (extractProbeQueries content keywords 5).length *
          (selectProbeProviders env.enabledProviders 3).length) ∧
    (∀ q ∈ extractProbeQueries content keywords 5,
      ∀ p ∈ selectProbeProviders env.enabledProviders 3,
      env.respond q.query p = none →
      (⟨q.query, p, false, none, none, []⟩ : ValidationProbeResult) ∈
        (validateCitability env content brandName brandDomain keywords
          competitors).probeResults) ∧
    (∀ (benv : BatchEnv) (probeId : Str) (providers : List Provider),
      (runProbeProviders benv probeId providers).records =
        providers.filter (fun p => benv.canMakeRequest p && (benv.callResult p).isSome) ∧
      (runProbeProviders benv probeId providers).errors =
        (providers.filter (fun p => benv.canMakeRequest p && (benv.callResult p).isNone)).map
          (fun p => (probeId, p))) := by
  refine ⟨fun hq hp => ?_, fun q hq' p hp' hfail => ?_, fun benv probeId providers =>
    runProbeProviders_spec benv probeId providers⟩
  · rw [validateCitability_probeResults env content brandName brandDomain keywords
      competitors hq hp, probeResultsOf_length]
  · have hq : extractProbeQueries content keywords 5 ≠ [] := by
      intro h
      rw [h] at hq'
      simp at hq'
    have hp : selectProbeProviders env.enabledProviders 3 ≠ [] := by
      intro h
      rw [h] at hp'
      simp at hp'
    rw [validateCitability_probeResults env content brandName brandDomain keywords
      competitors hq hp]
    unfold probeResultsOf
    refine List.mem_flatMap.mpr ⟨q, hq', List.mem_map.mpr ⟨p, hp', ?_⟩⟩
    unfold runProbePair
    rw [hfail]

section
attribute [local semireducible] Rat.mul Rat.inv Rat.add Rat.sub

/-- C5 witness: the amended theorem applied to the concrete failing
environment — the failed `openai` call appears as a present not-cited
result and the pair count is 1 × 2. -/
theorem C5_failure_isolation_witness :
    (⟨str "What are best CRM Tools?", Provider.openai, false, none, none, []⟩ :
        ValidationProbeResult) ∈
      (validateCitability exFailEnv (str "## Best CRM Tools") (str "Acme") (str "acme.com")
        [] []).probeResults ∧
    (validateCitability exFailEnv (str "## Best CRM Tools") (str "Acme") (str "acme.com")
        [] []).probeResults.length = 1 * 2 :=
  ⟨(C5_failure_isolation exFailEnv (str "## Best CRM Tools") (str "Acme") (str "acme.com")
      [] []).2.1 ⟨str "What are best CRM Tools?", .heading, 8/10⟩ (by decide)
      Provider.openai (by decide) rfl,
   (C5_failure_isolation exFailEnv (str "## Best CRM Tools") (str "Acme") (str "acme.com")
      [] []).1 (by decide) (by decide)⟩

end

-- ---------------------------------------------------------------------------
-- C3: citation-validation score formula
-- ---------------------------------------------------------------------------

theorem firstDedupAux_subset [DecidableEq α] (seen : List α) (l : List α) :
    ∀ a ∈ firstDedupAux seen l, a ∈ l := by
  induction l generalizing seen with
  | nil => intro a ha; simp [firstDedupAux] at ha
  | cons b l ih =>
    intro a ha
    unfold firstDedupAux at ha
    by_cases hb : b ∈ seen
    · rw [if_pos hb] at ha
      exact List.mem_cons_of_mem b (ih seen a ha)
    · rw [if_neg hb] at ha
      rcases List.mem_cons.mp ha with h | h
      · exact h ▸ List.mem_cons_self b l
      · exact List.mem_cons_of_mem b (ih (b :: seen) a h)

theorem mem_firstDedupAux [DecidableEq α] (seen l : List α) (a : α)
    (ha : a ∈ l) (hns : a ∉ seen) : a ∈ firstDedupAux seen l := by
  induction l generalizing seen with
  | nil => simp at ha
  | cons b l ih =>
    unfold firstDedupAux
    by_cases hb : b ∈ seen
    · rw [if_pos hb]
      rcases List.mem_cons.mp ha with h | h
      · exact absurd (h ▸ hb) hns
      · exact ih seen h hns
    · rw [if_neg hb]
      by_cases hab : a = b
      · exact hab ▸ List.mem_cons_self b _
      · rcases List.mem_cons.mp ha with h | h
        · exact absurd h hab
        · exact List.mem_cons_of_mem b (ih (b :: seen) h (by
            intro hmem
            rcases List.mem_cons.mp hmem with h' | h'
            · exact hab h'
            · exact hns h'))

theorem firstDedup_subset [DecidableEq α] (l : List α) : ∀ a ∈ firstDedup l, a ∈ l :=
  firstDedupAux_subset [] l

theorem mem_firstDedup [DecidableEq α] (l : List α) (a : α) (ha : a ∈ l) :
    a ∈ firstDedup l :=
  mem_firstDedupAux [] l a ha (by simp)

theorem multiProviderCited_iff (rs : List ValidationProbeResult) :
    multiProviderCited rs = true ↔
      ∃ r ∈ rs, r.cited = true ∧ 2 ≤ citedCountForQuery rs r.query := by
  unfold multiProviderCited
  rw [List.any_eq_true]
  constructor
  · rintro ⟨q, hq, hcount⟩
    have hq' : q ∈ (rs.filter (·.cited)).map (·.query) := firstDedup_subset _ _ hq
    obtain ⟨r, hr, hrq⟩ := List.mem_map.mp hq'
    have hmem := List.mem_filter.mp hr
    exact ⟨r, hmem.1, by simpa using hmem.2, by
      rw [hrq]
      simpa using hcount⟩
  · rintro ⟨r, hr, hc, hcount⟩
    refine ⟨r.query, ?_, by simpa using hcount⟩
    exact mem_firstDedup _ _ (List.mem_map.mpr ⟨r, List.mem_filter.mpr ⟨hr, by simpa using hc⟩, rfl⟩)

/-- The two-probe scenario of C3: one cited result (position 1, positive
sentiment) and one not cited, no competitor citations. -/
def exC3Rs : List ValidationProbeResult :=
  [⟨str "best crm tools", .google, true, some 1, some (str "positive"), []⟩,
   ⟨str "best crm tools", .openai, false, none, none, []⟩]

section
attribute [local semireducible] Rat.mul Rat.inv Rat.add Rat.sub

/-- C3: the citation-validation score equals
`round(clamp((cited / total) × 100 + 10·[positive sentiment] +
15·[position ≤ 3] + 10·[some query cited by ≥ 2 providers] −
10·(competitors out-citing the brand)))`, and on the two-probe scenario
(one cited at position 1 with positive sentiment, one not cited, no
competitor penalties) the score is 75. -/
theorem C3_citation_validation_score (rs : List ValidationProbeResult) :
    (scoreFromProbeResults rs = jsRound (min 100 (max 0
      (((citedCountOf rs : ℚ) / rs.length) * 100
        + (if hasPositiveSentiment rs then 10 else 0)
        + (if hasTopPosition rs then 15 else 0)
        + (if ∃ r ∈ rs, r.cited = true ∧ 2 ≤ citedCountForQuery rs r.query then 10 else 0)
        - 10 * (penalizedCompetitorCount rs : ℚ))))) ∧
    scoreFromProbeResults exC3Rs = 75 := by
  constructor
  · have hmulti : (if multiProviderCited rs then (10 : ℚ) else 0) =
        (if ∃ r ∈ rs, r.cited = true ∧ 2 ≤ citedCountForQuery rs r.query then (10 : ℚ)
         else 0) := by
      exact if_congr (multiProviderCited_iff rs) rfl rfl
    unfold scoreFromProbeResults
    dsimp only
    rw [hmulti]
  · decide

end

-- ---------------------------------------------------------------------------
-- C1: composite scoring
-- ---------------------------------------------------------------------------

theorem structuralScore_mem (body schemaMarkup brandName : Str) (keywords : List Str) :
    0 ≤ (calculateStructuralScore body schemaMarkup brandName keywords).score ∧
    (calculateStructuralScore body schemaMarkup brandName keywords).score ≤ 100 := by
  unfold calculateStructuralScore
  dsimp only
  exact jsRound_clamp_mem _

theorem scoreFromProbeResults_mem (rs : List ValidationProbeResult) :
    0 ≤ scoreFromProbeResults rs ∧ scoreFromProbeResults rs ≤ 100 := by
  unfold scoreFromProbeResults
  dsimp only
  exact jsRound_clamp_mem _

theorem validateCitability_score_mem (env : Env) (content brandName brandDomain : Str)
    (keywords : List Str) (competitors : List Competitor) :
    0 ≤ (validateCitability env content brandName brandDomain keywords competitors).score ∧
    (validateCitability env content brandName brandDomain keywords competitors).score ≤ 100 := by
  unfold validateCitability
  dsimp only
  split
  · exact ⟨by norm_num, by norm_num⟩
  · split
    · exact ⟨by norm_num, by norm_num⟩
    · split
      · exact ⟨by norm_num, by norm_num⟩
      · exact scoreFromProbeResults_mem _

theorem validateCitability_weight (env : Env) (content brandName brandDomain : Str)
    (keywords : List Str) (competitors : List Competitor) :
    (validateCitability env content brandName brandDomain keywords competitors).weight =
      1/2 := by
  unfold validateCitability
  dsimp only
  split
  · rfl
  · split
    · rfl
    · split <;> rfl

theorem competitiveGapScoreValue_mem (yourRate avgRate : ℚ) :
    0 ≤ competitiveGapScoreValue yourRate avgRate ∧
    competitiveGapScoreValue yourRate avgRate ≤ 100 := by
  unfold competitiveGapScoreValue
  split
  · exact ⟨by norm_num, by norm_num⟩
  · next h =>
    refine ⟨le_max_left 0 _, max_le (by norm_num) (jsRound_le_of_le ?_)⟩
    have h1 : yourRate < avgRate := not_le.mp h
    have h2 : (0 : ℚ) ≤ (avgRate - yourRate) * (3/2) := by nlinarith
    linarith

theorem analyzeCompetitiveGap_score_mem (brandName brandDomain : Str)
    (competitors : List Competitor) (rs : List CitationResult) :
    0 ≤ (analyzeCompetitiveGap brandName brandDomain competitors rs).score ∧
    (analyzeCompetitiveGap brandName brandDomain competitors rs).score ≤ 100 := by
  unfold analyzeCompetitiveGap
  dsimp only
  split
  · exact ⟨by norm_num, by norm_num⟩
  · exact competitiveGapScoreValue_mem _ _

theorem analyzeCompetitiveGap_weight (brandName brandDomain : Str)
    (competitors : List Competitor) (rs : List CitationResult) :
    (analyzeCompetitiveGap brandName brandDomain competitors rs).weight = 3/10 := by
  unfold analyzeCompetitiveGap
  dsimp only
  split <;> rfl

theorem scoreContent_weights (env : Env) (body schemaMarkup brandName brandDomain : Str)
    (keywords : List Str) (competitors : List Competitor) (skipValidation : Bool) :
    (scoreContent env body schemaMarkup brandName brandDomain keywords competitors
        skipValidation).structural.weight = 1/5 ∧
    (scoreContent env body schemaMarkup brandName brandDomain keywords competitors
        skipValidation).citationValidation.weight = 1/2 ∧
    (scoreContent env body schemaMarkup brandName brandDomain keywords competitors
        skipValidation).competitiveGap.weight = 3/10 := by
  refine ⟨rfl, ?_, ?_⟩
  · show (if skipValidation then (⟨0, 1/2, []⟩ : CitationValidationScore)
      else validateCitability env body brandName brandDomain keywords competitors).weight = 1/2
    split
    · rfl
    · exact validateCitability_weight env body brandName brandDomain keywords competitors
  · show (analyzeCompetitiveGap brandName brandDomain competitors
        ((if skipValidation then (⟨0, 1/2, []⟩ : CitationValidationScore)
          else validateCitability env body brandName brandDomain keywords
            competitors).probeResults.map
          (fun r => ⟨r.query, providerName r.provider, r.cited, r.competitorsCited⟩))).weight =
      3/10
    exact analyzeCompetitiveGap_weight _ _ _ _

/-- C1: for every input, the overall score of `scoreContent` is
`round(structural × 0.2 + citationValidation × 0.5 + competitiveGap × 0.3)`,
the three sub-score records carry weights 0.2, 0.5 and 0.3 (summing to 1),
and each sub-score lies in `[0, 100]`. -/
theorem C1_overall_composite (env : Env) (body schemaMarkup brandName brandDomain : Str)
    (keywords : List Str) (competitors : List Competitor) (skipValidation : Bool) :
    (scoreContent env body schemaMarkup brandName brandDomain keywords competitors
        skipValidation).overall =
      jsRound
        (((scoreContent env body schemaMarkup brandName brandDomain keywords competitors
            skipValidation).structural.score : ℚ) * (2/10) +
         ((scoreContent env body schemaMarkup brandName brandDomain keywords competitors
            skipValidation).citationValidation.score : ℚ) * (5/10) +
         ((scoreContent env body schemaMarkup brandName brandDomain keywords competitors
            skipValidation).competitiveGap.score : ℚ) * (3/10)) ∧
    (scoreContent env body schemaMarkup brandName brandDomain keywords competitors
        skipValidation).structural.weight = 2/10 ∧
    (scoreContent env body schemaMarkup brandName brandDomain keywords competitors
        skipValidation).citationValidation.weight = 5/10 ∧
    (scoreContent env body schemaMarkup brandName brandDomain keywords competitors
        skipValidation).competitiveGap.weight = 3/10 ∧
    (scoreContent env body schemaMarkup brandName brandDomain keywords competitors
        skipValidation).structural.weight +
      (scoreContent env body schemaMarkup brandName brandDomain keywords competitors
        skipValidation).citationValidation.weight +
      (scoreContent env body schemaMarkup brandName brandDomain keywords competitors
        skipValidation).competitiveGap.weight = 1 ∧
    (0 ≤ (scoreContent env body schemaMarkup brandName brandDomain keywords competitors
        skipValidation).structural.score ∧
      (scoreContent env body schemaMarkup brandName brandDomain keywords competitors
        skipValidation).structural.score ≤ 100) ∧
    (0 ≤ (scoreContent env body schemaMarkup brandName brandDomain keywords competitors
        skipValidation).citationValidation.score ∧
      (scoreContent env body schemaMarkup brandName brandDomain keywords competitors
        skipValidation).citationValidation.score ≤ 100) ∧
    (0 ≤ (scoreContent env body schemaMarkup brandName brandDomain keywords competitors
        skipValidation).competitiveGap.score ∧
      (scoreContent env body schemaMarkup brandName brandDomain keywords competitors
        skipValidation).competitiveGap.score ≤ 100) := by
  obtain ⟨hw1, hw2, hw3⟩ := scoreContent_weights env body schemaMarkup brandName brandDomain
    keywords competitors skipValidation
  have hoverall : (scoreContent env body schemaMarkup brandName brandDomain keywords
      competitors skipValidation).overall =
    jsRound
      (((scoreContent env body schemaMarkup brandName brandDomain keywords competitors
          skipValidation).structural.score : ℚ) *
        (scoreContent env body schemaMarkup brandName brandDomain keywords competitors
          skipValidation).structural.weight +
       ((scoreContent env body schemaMarkup brandName brandDomain keywords competitors
          skipValidation).citationValidation.score : ℚ) *
        (scoreContent env body schemaMarkup brandName brandDomain keywords competitors
          skipValidation).citationValidation.weight +
       ((scoreContent env body schemaMarkup brandName brandDomain keywords competitors
          skipValidation).competitiveGap.score : ℚ) *
        (scoreContent env body schemaMarkup brandName brandDomain keywords competitors
          skipValidation).competitiveGap.weight) := rfl
  refine ⟨?_, by rw [hw1]; norm_num, by rw [hw2]; norm_num, hw3, by rw [hw1, hw2, hw3]; norm_num,
    ?_, ?_, ?_⟩
  · rw [hoverall, hw1, hw2, hw3]
    norm_num
  · exact structuralScore_mem body schemaMarkup brandName keywords
  · show 0 ≤ (if skipValidation then (⟨0, 1/2, []⟩ : CitationValidationScore)
        else validateCitability env body brandName brandDomain keywords competitors).score ∧
      (if skipValidation then (⟨0, 1/2, []⟩ : CitationValidationScore)
        else validateCitability env body brandName brandDomain keywords competitors).score ≤ 100
    split
    · exact ⟨by norm_num, by norm_num⟩
    · exact validateCitability_score_mem env body brandName brandDomain keywords competitors
  · show 0 ≤ (analyzeCompetitiveGap brandName brandDomain competitors
        ((if skipValidation then (⟨0, 1/2, []⟩ : CitationValidationScore)
          else validateCitability env body brandName brandDomain keywords
            competitors).probeResults.map
          (fun r => ⟨r.query, providerName r.provider, r.cited, r.competitorsCited⟩))).score ∧
      (analyzeCompetitiveGap brandName brandDomain competitors
        ((if skipValidation then (⟨0, 1/2, []⟩ : CitationValidationScore)
          else validateCitability env body brandName brandDomain keywords
            competitors).probeResults.map
          (fun r => ⟨r.query, providerName r.provider, r.cited, r.competitorsCited⟩))).score ≤ 100
    exact analyzeCompetitiveGap_score_mem _ _ _ _

-- ---------------------------------------------------------------------------
-- C6/C10: properties of the query extractor
-- ---------------------------------------------------------------------------

theorem insertDescBy_perm (key : α → ℚ) (x : α) (l : List α) :
    List.Perm (insertDescBy key x l) (x :: l) := by
  induction l with
  | nil => exact List.Perm.refl _
  | cons y ys ih =>
    unfold insertDescBy
    split
    · exact List.Perm.refl _
    · exact List.Perm.trans (List.Perm.cons y ih) (List.Perm.swap x y ys)

theorem sortDescBy_perm (key : α → ℚ) (l : List α) :
    List.Perm (sortDescBy key l) l := by
  induction l with
  | nil => exact List.Perm.refl _
  | cons x xs ih =>
    exact List.Perm.trans (insertDescBy_perm key x (sortDescBy key xs)) (List.Perm.cons x ih)

theorem mem_sortDescBy (key : α → ℚ) (l : List α) (a : α) :
    a ∈ sortDescBy key l ↔ a ∈ l :=
  (sortDescBy_perm key l).mem_iff

theorem pairwise_insertDescBy (key : α → ℚ) (x : α) (l : List α)
    (h : l.Pairwise (fun a b => key b ≤ key a)) :
    (insertDescBy key x l).Pairwise (fun a b => key b ≤ key a) := by
  induction l with
  | nil => exact List.pairwise_singleton _ x
  | cons y ys ih =>
    rw [List.pairwise_cons] at h
    unfold insertDescBy
    split
    · next hxy =>
      rw [List.pairwise_cons]
      refine ⟨fun z hz => ?_, List.pairwise_cons.mpr h⟩
      rcases List.mem_cons.mp hz with rfl | hz'
      · exact hxy
      · exact le_trans (h.1 z hz') hxy
    · next hxy =>
      rw [List.pairwise_cons]
      refine ⟨fun z hz => ?_, ih h.2⟩
      rcases List.mem_cons.mp ((insertDescBy_perm key x ys).mem_iff.mp hz) with rfl | hz'
      · exact le_of_lt (not_le.mp hxy)
      · exact h.1 z hz'

theorem sortDescBy_sorted (key : α → ℚ) (l : List α) :
    (sortDescBy key l).Pairwise (fun a b => key b ≤ key a) := by
  induction l with
  | nil => exact List.Pairwise.nil
  | cons x xs ih => exact pairwise_insertDescBy key x (sortDescBy key xs) ih

theorem deduplicateQueriesAux_spec (l : List ExtractedQuery) : ∀ seen : List Str,
    (∀ q ∈ deduplicateQueriesAux seen l,
      q ∈ l ∧ normalizeQuery q.query ≠ [] ∧ normalizeQuery q.query ∉ seen) ∧
    (deduplicateQueriesAux seen l).Pairwise
      (fun a b => normalizeQuery a.query ≠ normalizeQuery b.query) := by
  induction l with
  | nil => intro seen; exact ⟨fun q hq => by simp [deduplicateQueriesAux] at hq, List.Pairwise.nil⟩
  | cons q qs ih =>
    intro seen
    unfold deduplicateQueriesAux
    dsimp only
    split
    · next hkeep =>
      constructor
      · intro r hr
        rcases List.mem_cons.mp hr with rfl | hr'
        · exact ⟨List.mem_cons_self _ _, hkeep.1, hkeep.2⟩
        · obtain ⟨hmem, hne, hnseen⟩ := ((ih (normalizeQuery q.query :: seen)).1) r hr'
          exact ⟨List.mem_cons_of_mem q hmem, hne,
            fun hc => hnseen (List.mem_cons_of_mem _ hc)⟩
      · rw [List.pairwise_cons]
        refine ⟨fun r hr => ?_, (ih (normalizeQuery q.query :: seen)).2⟩
        obtain ⟨_, _, hnseen⟩ := ((ih (normalizeQuery q.query :: seen)).1) r hr
        intro hc
        exact hnseen (hc ▸ List.mem_cons_self _ _)
    · next hskip =>
      refine ⟨fun r hr => ?_, (ih seen).2⟩
      obtain ⟨hmem, hne, hnseen⟩ := ((ih seen).1) r hr
      exact ⟨List.mem_cons_of_mem q hmem, hne, hnseen⟩

/-- Every query kept by `deduplicateQueries` comes from the input and has a
non-empty normalization; the outputs' normalizations are pairwise
distinct. -/
theorem deduplicateQueries_spec (l : List ExtractedQuery) :
    (∀ q ∈ deduplicateQueries l, q ∈ l ∧ normalizeQuery q.query ≠ []) ∧
    (deduplicateQueries l).Pairwise
      (fun a b => normalizeQuery a.query ≠ normalizeQuery b.query) :=
  ⟨fun q hq => ⟨((deduplicateQueriesAux_spec l []).1 q hq).1,
    ((deduplicateQueriesAux_spec l []).1 q hq).2.1⟩,
   (deduplicateQueriesAux_spec l []).2⟩

/-- The fixed confidence of each query source (§ the push sites of
`extractProbeQueries`). -/
def sourceConfidence : QuerySource → ℚ
  | .heading => 8/10
  | .faq => 9/10
  | .topic => 7/10
  | .keyword => 6/10

theorem endsQm_append (a b : Str) (h : b.getLast? = some '?') :
    (a ++ b).getLast? = some '?' := by
  have hb : b ≠ [] := by
    intro hb
    rw [hb] at h
    simp at h
  rw [List.getLast?_append_of_ne_nil a hb, h]

theorem endsWithQm_getLast? (s : Str) (h : endsWithQm s = true) :
    s.getLast? = some '?' := of_decide_eq_true h

/-- Every heading-to-question conversion ends with a question mark. -/
theorem headingToQuestion_getLast? (heading : Str) :
    (headingToQuestion heading).getLast? = some '?' := by
  unfold headingToQuestion
  dsimp only
  by_cases h1 : endsWithQm (trimStr heading) = true
  · rw [if_pos h1]
    exact endsWithQm_getLast? _ h1
  · rw [if_neg h1]
    cases h2 : matchHowTo (trimStr heading) with
    | some rest =>
      refine endsQm_append _ _ ?_
      rfl
    | none =>
      dsimp only
      cases h3 : (match dropCI (str "why") (trimStr heading) with
                  | some t => whyMatchCapture t
                  | none => none) with
      | some x =>
        refine endsQm_append _ _ ?_
        rfl
      | none =>
        dsimp only
        split
        · refine endsQm_append _ _ ?_
          rfl
        · split
          · refine endsQm_append _ _ ?_
            rfl
          · split
            · refine endsQm_append _ _ ?_
              rfl
            · refine endsQm_append _ _ ?_
              rfl

theorem exists_of_findSome?_some {f : α → Option β} {l : List α} {b : β}
    (h : l.findSome? f = some b) : ∃ a ∈ l, f a = some b := by
  induction l with
  | nil => simp [List.findSome?] at h
  | cons x xs ih =>
    cases hx : f x with
    | some c =>
      simp only [List.findSome?_cons, hx] at h
      exact ⟨x, List.mem_cons_self _ _, by rw [hx, h]⟩
    | none =>
      simp only [List.findSome?_cons, hx] at h
      obtain ⟨a, ha, hfa⟩ := ih h
      exact ⟨a, List.mem_cons_of_mem x ha, hfa⟩

theorem extractTopicQuery_getLast? (markdown : Str) (q : Str)
    (h : extractTopicQuery markdown = some q) : q.getLast? = some '?' := by
  unfold extractTopicQuery at h
  obtain ⟨l, _, hl⟩ := exists_of_findSome?_some h
  unfold topicQueryOfLine at hl
  dsimp only at hl
  split at hl
  · exact absurd hl (by simp)
  · split at hl
    · rw [Option.some_inj] at hl
      rw [← hl]
      refine endsQm_append _ _ ?_
      rfl
    · exact absurd hl (by simp)

/-- Every query in the pre-deduplication list carries its source's fixed
confidence and ends with a question mark. -/
theorem rawQueries_spec (markdown : Str) (keywords : List Str) :
    ∀ q ∈ headingQueries markdown ++ faqQueries markdown ++ topicQueries markdown ++
      keywordQueries keywords,
      q.confidence = sourceConfidence q.source ∧ q.query.getLast? = some '?' := by
  intro q hq
  rcases List.mem_append.mp hq with hq' | hq'
  · rcases List.mem_append.mp hq' with hq'' | hq''
    · rcases List.mem_append.mp hq'' with hh | hh
      · -- heading
        obtain ⟨line, _, hline⟩ := List.mem_filterMap.mp hh
        cases ht : headingTextOf line with
        | some t =>
          rw [ht] at hline
          dsimp only at hline
          split at hline
          · exact absurd hline (by simp)
          · rw [Option.some_inj] at hline
            rw [← hline]
            exact ⟨rfl, headingToQuestion_getLast? t⟩
        | none => rw [ht] at hline; exact absurd hline (by simp)
      · -- faq
        obtain ⟨line, _, hline⟩ := List.mem_filterMap.mp hh
        cases hc : faqQuestionOf line with
        | some cap =>
          rw [hc] at hline
          dsimp only at hline
          split at hline
          · exact absurd hline (by simp)
          · rw [Option.some_inj] at hline
            rw [← hline]
            refine ⟨rfl, ?_⟩
            dsimp only
            split
            · next hqm => exact endsWithQm_getLast? _ hqm
            · refine endsQm_append _ _ ?_
              rfl
        | none => rw [hc] at hline; exact absurd hline (by simp)
    · -- topic
      unfold topicQueries at hq''
      cases ht : extractTopicQuery markdown with
      | some t =>
        rw [ht] at hq''
        rcases List.mem_singleton.mp hq'' with rfl
        exact ⟨rfl, extractTopicQuery_getLast? markdown t ht⟩
      | none => rw [ht] at hq''; simp at hq''
  · -- keyword
    obtain ⟨kw, _, hkw⟩ := List.mem_filterMap.mp hq'
    dsimp only at hkw
    split at hkw
    · exact absurd hkw (by simp)
    · rw [Option.some_inj] at hkw
      rw [← hkw]
      refine ⟨rfl, ?_⟩
      refine endsQm_append _ _ ?_
      rfl

/-- C6: `extractProbeQueries` returns at most `maxQueries` queries, no two
returned queries share a normalized text, the list is sorted by confidence
descending, and each query carries its source's fixed confidence
(heading 0.8, FAQ 0.9, topic 0.7, keyword 0.6). -/
theorem C6_extractProbeQueries (markdown : Str) (keywords : List Str) (maxQueries : Nat) :
    (extractProbeQueries markdown keywords maxQueries).length ≤ maxQueries ∧
    (extractProbeQueries markdown keywords maxQueries).Pairwise
      (fun a b => normalizeQuery a.query ≠ normalizeQuery b.query) ∧
    (extractProbeQueries markdown keywords maxQueries).Pairwise
      (fun a b => b.confidence ≤ a.confidence) ∧
    ∀ q ∈ extractProbeQueries markdown keywords maxQueries,
      q.confidence = sourceConfidence q.source := by
  unfold extractProbeQueries
  dsimp only
  refine ⟨List.length_take_le _ _, ?_, ?_, ?_⟩
  · have hd := (deduplicateQueries_spec (headingQueries markdown ++ faqQueries markdown ++
      topicQueries markdown ++ keywordQueries keywords)).2
    have hperm := sortDescBy_perm (fun q : ExtractedQuery => q.confidence)
      (deduplicateQueries (headingQueries markdown ++ faqQueries markdown ++
        topicQueries markdown ++ keywordQueries keywords))
    have hsorted := (hperm.pairwise_iff (fun h e => h e.symm)).mpr hd
    exact hsorted.sublist (List.take_sublist _ _)
  · exact (sortDescBy_sorted _ _).sublist (List.take_sublist _ _)
  · intro q hq
    have hq1 := List.mem_of_mem_take hq
    have hq2 := (mem_sortDescBy _ _ q).mp hq1
    have hq3 := ((deduplicateQueries_spec _).1 q hq2).1
    exact (rawQueries_spec markdown keywords q hq3).1

/-- C10: every returned query is non-empty, ends with `?`, and has a
non-empty normalization. -/
theorem C10_query_shape (markdown : Str) (keywords : List Str) (maxQueries : Nat) :
    ∀ q ∈ extractProbeQueries markdown keywords maxQueries,
      q.query ≠ [] ∧ q.query.getLast? = some '?' ∧ normalizeQuery q.query ≠ [] := by
  intro q hq
  unfold extractProbeQueries at hq
  dsimp only at hq
  have hq1 := List.mem_of_mem_take hq
  have hq2 := (mem_sortDescBy _ _ q).mp hq1
  have hmem := (deduplicateQueries_spec _).1 q hq2
  have hlast := (rawQueries_spec markdown keywords q hmem.1).2
  refine ⟨fun h => ?_, hlast, hmem.2⟩
  rw [h] at hlast
  simp at hlast

/-- Markdown exercising all four query sources. -/
def exMdC6 : Str :=
  str "## Best CRM Tools\n\nChoosing a customer platform is hard these days.\n\nQ: What should I buy?"

section
attribute [local semireducible] Rat.mul Rat.inv Rat.add Rat.sub

/-- C6 witness: the theorem applied to concrete markdown and keywords — the
length bound, and the fixed confidence of the concrete FAQ query. -/
theorem C6_extractProbeQueries_witness :
    (extractProbeQueries exMdC6 [str "crm"] 5).length ≤ 5 ∧
    (⟨str "What should I buy?", .faq, 9/10⟩ : ExtractedQuery).confidence =
      sourceConfidence QuerySource.faq :=
  ⟨(C6_extractProbeQueries exMdC6 [str "crm"] 5).1,
   (C6_extractProbeQueries exMdC6 [str "crm"] 5).2.2.2 _ (by decide)⟩

/-- C10 witness: the theorem applied to a concrete heading-derived query. -/
theorem C10_query_shape_witness :
    (str "What are best CRM Tools?" : Str) ≠ [] ∧
    (str "What are best CRM Tools?" : Str).getLast? = some '?' ∧
    normalizeQuery (str "What are best CRM Tools?") ≠ [] :=
  C10_query_shape (str "## Best CRM Tools") [] 5
    ⟨str "What are best CRM Tools?", .heading, 8/10⟩ (by decide)

end

-- ---------------------------------------------------------------------------
-- C7: entity resolution is not idempotent (code bug)
-- ---------------------------------------------------------------------------

/-- C7: evaluation of the failing input. After `upsertEntity "Salesforce"`
and `upsertEntity "Salesforce CRM"` (both returning `entity-salesforce`), a
second `upsertEntity "Salesforce CRM"` exact-matches the alias *node*
created by the first (alias nodes are stored as `Entity` rows carrying the
variant as their `canonicalName`), so it returns the alias node's id
`alias-0` instead of `entity-salesforce`, and creates a second `ALIAS_OF`
edge for the same literal variant (an alias chain `alias-1 → alias-0`).
This contradicts the claimed idempotence on both counts. -/
theorem C7_entity_resolution_bug :
    (upsertEntity emptyGraph (str "Salesforce") (str "openai")).1 =
      str "entity-salesforce" ∧
    (upsertEntity (upsertEntity emptyGraph (str "Salesforce") (str "openai")).2
      (str "Salesforce CRM") (str "anthropic")).1 = str "entity-salesforce" ∧
    (upsertEntity (upsertEntity (upsertEntity emptyGraph (str "Salesforce")
        (str "openai")).2 (str "Salesforce CRM") (str "anthropic")).2
      (str "Salesforce CRM") (str "perplexity")).1 = str "alias-0" ∧
    (upsertEntity (upsertEntity (upsertEntity emptyGraph (str "Salesforce")
        (str "openai")).2 (str "Salesforce CRM") (str "anthropic")).2
      (str "Salesforce CRM") (str "perplexity")).1 ≠ str "entity-salesforce" ∧
    aliasEdgesForName
      (upsertEntity (upsertEntity (upsertEntity emptyGraph (str "Salesforce")
          (str "openai")).2 (str "Salesforce CRM") (str "anthropic")).2
        (str "Salesforce CRM") (str "perplexity")).2 (str "Salesforce CRM") = 2 := by
  decide

-- ---------------------------------------------------------------------------
-- C8: structural score is not invariant under section reordering
-- ---------------------------------------------------------------------------

/-- Markdown sections joined by blank lines, as in a markdown document. -/
def joinSections : List Str → Str
  | [] => []
  | [s] => s
  | s :: ss => s ++ str "\n\n" ++ joinSections ss

/-- The two sections of the C8 counterexample. -/
def secA : Str := str "Alpha is good."

/-- See `secA`. -/
def secB : Str := str "## Topic\nNice stuff here"

section
attribute [local semireducible] Rat.mul Rat.inv Rat.add Rat.sub
set_option maxRecDepth 4000

/-- C8 counterexample: swapping the two markdown sections changes the
structural score from 20 to 5 — the first-paragraph direct-answer factor
(worth 15 points) fires only when the `Alpha is good.` paragraph is the
first substantive line. The structural score is therefore not invariant
under reordering of the content's sections. -/
theorem C8_counterexample :
    (calculateStructuralScore (joinSections [secA, secB]) (str "") (str "zq") []).score = 20 ∧
    (calculateStructuralScore (joinSections [secB, secA]) (str "") (str "zq") []).score = 5 ∧
    (calculateStructuralScore (joinSections [secA, secB]) (str "") (str "zq")
        []).factors.hasDirectAnswers = true ∧
    (calculateStructuralScore (joinSections [secB, secA]) (str "") (str "zq")
        []).factors.hasDirectAnswers = false := by
  decide

end

-- ---------------------------------------------------------------------------
-- C8 (amended): the heading-count factor IS invariant under line reordering
-- ---------------------------------------------------------------------------

/-- Join lines with single newlines (inverse of splitting a body on `'\n'`). -/
def unlines : List Str → Str
  | [] => []
  | [l] => l
  | l :: ls => l ++ '\n' :: unlines ls

/-- Whether a string starts with a whitespace character. -/
def headWsB : Str → Bool
  | [] => false
  | c :: _ => isWs c

/-- Line-local criterion for a `/^#{1,6}\s+.+$/` heading match: one to six
leading hashes followed by a whitespace character. -/
def isHeadingLineB (l : Str) : Bool :=
  decide (1 ≤ (l.takeWhile (· = '#')).length ∧ (l.takeWhile (· = '#')).length ≤ 6) &&
    headWsB (l.drop (l.takeWhile (· = '#')).length)

/-- A well-formed line: free of line terminators, and if it is
heading-shaped (1–6 leading hashes) the tail after the hashes contains a
non-whitespace character, so the regex match cannot spill onto the next
line through `\s+`. -/
def lineOk (l : Str) : Prop :=
  '\n' ∉ l ∧ '\r' ∉ l ∧
    (1 ≤ (l.takeWhile (· = '#')).length ∧ (l.takeWhile (· = '#')).length ≤ 6 →
      (l.drop (l.takeWhile (· = '#')).length).dropWhile isWs ≠ [])

instance lineOkDecidable (l : Str) : Decidable (lineOk l) := by
  unfold lineOk
  infer_instance

theorem takeWhile_all (p : Char → Bool) : ∀ l : Str,
    (∀ x ∈ l, p x = true) → l.takeWhile p = l
  | [], _ => rfl
  | c :: cs, h => by
    rw [List.takeWhile_cons, if_pos (h c (List.mem_cons_self c cs)),
      takeWhile_all p cs (fun x hx => h x (List.mem_cons_of_mem c hx))]

theorem drop_length_takeWhile (p : Char → Bool) : ∀ l : Str,
    l.drop (l.takeWhile p).length = l.dropWhile p
  | [] => rfl
  | c :: cs => by
    by_cases h : p c = true
    · rw [List.takeWhile_cons, if_pos h, List.dropWhile_cons, if_pos h]
      simpa using drop_length_takeWhile p cs
    · rw [List.takeWhile_cons, if_neg h, List.dropWhile_cons, if_neg h]
      rfl

theorem restTW (p : Char → Bool) (rest : Str) (hp : p '\n' = false)
    (hrest : rest = [] ∨ rest.head? = some '\n') : rest.takeWhile p = [] := by
  rcases hrest with rfl | hhead
  · rfl
  · cases rest with
    | nil => rfl
    | cons c cs =>
      simp only [List.head?_cons, Option.some.injEq] at hhead
      subst hhead
      rw [List.takeWhile_cons, hp]
      simp

theorem hashRun_append (l rest : Str) (hrest : rest = [] ∨ rest.head? = some '\n') :
    (l ++ rest).takeWhile (· = '#') = l.takeWhile (· = '#') := by
  rw [List.takeWhile_append]
  by_cases hfull : (l.takeWhile (· = '#')).length = l.length
  · rw [if_pos hfull, restTW _ rest (by decide) hrest, List.append_nil]
    exact ((List.takeWhile_prefix _).eq_of_length hfull).symm
  · rw [if_neg hfull]

theorem wsDotTail_line (t rest : Str)
    (hdot : ∀ x ∈ t, isDotChar x = true)
    (hws1 : headWsB t = true)
    (hdw : t.dropWhile isWs ≠ [])
    (hrest : rest = [] ∨ rest.head? = some '\n') :
    wsDotTail (t ++ rest) = some t.length := by
  have hsum : (t.takeWhile isWs).length + (t.dropWhile isWs).length = t.length := by
    have h := congrArg List.length (List.takeWhile_append_dropWhile isWs t)
    rw [List.length_append] at h
    exact h
  have hlt : (t.takeWhile isWs).length < t.length := by
    rcases Nat.lt_or_ge (t.takeWhile isWs).length t.length with h | h
    · exact h
    · exfalso
      have hle := (List.takeWhile_prefix (p := isWs) (l := t)).length_le
      have hz : (t.dropWhile isWs).length = 0 := by omega
      exact hdw (List.eq_nil_of_length_eq_zero hz)
  have htw : (t ++ rest).takeWhile isWs = t.takeWhile isWs := by
    rw [List.takeWhile_append, if_neg (by omega)]
  obtain ⟨w0, hw0⟩ : ∃ w0, (t.takeWhile isWs).length = w0 + 1 := by
    cases hc : t with
    | nil =>
      rw [hc] at hws1
      simp [headWsB] at hws1
    | cons c t' =>
      have hcws : isWs c = true := by
        rw [hc] at hws1
        simpa [headWsB] using hws1
      rw [List.takeWhile_cons, if_pos hcws]
      exact ⟨(t'.takeWhile isWs).length, by simp⟩
  have hwle : w0 + 1 ≤ t.length := by omega
  have hdropT : t.drop (w0 + 1) = t.dropWhile isWs := by
    rw [← hw0]
    exact drop_length_takeWhile isWs t
  have hXdrop : (t ++ rest).drop (w0 + 1) = t.dropWhile isWs ++ rest := by
    rw [List.drop_append_of_le_length hwle, hdropT]
  have hdotdw : (t.dropWhile isWs).takeWhile isDotChar = t.dropWhile isWs :=
    takeWhile_all isDotChar (t.dropWhile isWs)
      (fun x hx => hdot x ((List.dropWhile_sublist isWs).mem hx))
  have hcontent : ((t ++ rest).drop (w0 + 1)).takeWhile isDotChar = t.dropWhile isWs := by
    rw [hXdrop, List.takeWhile_append, if_pos (by rw [hdotdw]),
      restTW isDotChar rest (by decide) hrest, List.append_nil]
  have hlen : w0 + 1 + (t.dropWhile isWs).length = t.length := by omega
  have hdollar : dollarAt ((t ++ rest).drop (w0 + 1 + (t.dropWhile isWs).length)) = true := by
    rw [hlen, List.drop_left]
    rcases hrest with rfl | hh
    · rfl
    · cases rest with
      | nil => rfl
      | cons c cs =>
        simp only [List.head?_cons, Option.some.injEq] at hh
        subst hh
        rfl
  unfold wsDotTail
  rw [htw, hw0]
  simp only [wsDotTailTry]
  rw [hcontent, if_pos ⟨hdw, hdollar⟩, hlen]

theorem headingLineMatchAt_line (l rest : Str) (hok : lineOk l)
    (hrest : rest = [] ∨ rest.head? = some '\n') :
    headingLineMatchAt (l ++ rest) = if isHeadingLineB l then some l.length else none := by
  obtain ⟨hn, hr, hgood⟩ := hok
  have hhash : (l ++ rest).takeWhile (· = '#') = l.takeWhile (· = '#') :=
    hashRun_append l rest hrest
  have hrle : (l.takeWhile (· = '#')).length ≤ l.length := (List.takeWhile_prefix _).length_le
  have hdropEq : (l ++ rest).drop (l.takeWhile (· = '#')).length
      = l.drop (l.takeWhile (· = '#')).length ++ rest := List.drop_append_of_le_length hrle
  simp only [headingLineMatchAt]
  rw [hhash, hdropEq]
  by_cases hcond : 1 ≤ (l.takeWhile (· = '#')).length ∧ (l.takeWhile (· = '#')).length ≤ 6
  · have hdw := hgood hcond
    by_cases hws : headWsB (l.drop (l.takeWhile (· = '#')).length) = true
    · have hdot : ∀ x ∈ l.drop (l.takeWhile (· = '#')).length, isDotChar x = true := by
        intro x hx
        exact decide_eq_true (fun hor => hor.elim
          (fun h1 => hn (h1 ▸ List.mem_of_mem_drop hx))
          (fun h2 => hr (h2 ▸ List.mem_of_mem_drop hx)))
      have hbT : isHeadingLineB l = true := by
        unfold isHeadingLineB
        rw [decide_eq_true hcond, Bool.true_and]
        exact hws
      rw [if_pos hcond, wsDotTail_line _ rest hdot hws hdw hrest, hbT, if_pos rfl]
      show some ((l.takeWhile (· = '#')).length
          + (l.drop (l.takeWhile (· = '#')).length).length) = some l.length
      rw [List.length_drop]
      congr 1
      omega
    · rw [Bool.not_eq_true] at hws
      have hbF : isHeadingLineB l = false := by
        unfold isHeadingLineB
        rw [decide_eq_true hcond, Bool.true_and]
        exact hws
      cases ht : l.drop (l.takeWhile (· = '#')).length with
      | nil =>
        rw [ht] at hdw
        exact absurd rfl hdw
      | cons c t' =>
        rw [ht] at hws
        have hcws : isWs c = false := by simpa [headWsB] using hws
        have hwn : wsDotTail ((c :: t') ++ rest) = none := by
          unfold wsDotTail
          rw [List.cons_append, List.takeWhile_cons, hcws, if_neg Bool.false_ne_true]
          rfl
        rw [if_pos hcond, hwn, hbF, if_neg Bool.false_ne_true]
        rfl
  · have hbF : isHeadingLineB l = false := by
      unfold isHeadingLineB
      rw [decide_eq_false hcond, Bool.false_and]
    rw [if_neg hcond, hbF, if_neg Bool.false_ne_true]

theorem countHeadingGo_notStart (c : Char) (cs : Str) :
    countHeadingGo 0 false (c :: cs) = countHeadingGo 0 (decide (c = '\n')) cs := rfl

theorem countHeadingGo_start_some (c : Char) (cs : Str) (k : Nat)
    (h : headingLineMatchAt (c :: cs) = some k) :
    countHeadingGo 0 true (c :: cs) = 1 + countHeadingGo (k - 1) false cs := by
  simp only [countHeadingGo, h]
  exact if_pos trivial

theorem countHeadingGo_start_none (c : Char) (cs : Str)
    (h : headingLineMatchAt (c :: cs) = none) :
    countHeadingGo 0 true (c :: cs) = countHeadingGo 0 (decide (c = '\n')) cs := by
  simp only [countHeadingGo, h]
  exact if_pos trivial

theorem countHeadingGo_consume : ∀ (xs s : Str),
    countHeadingGo xs.length false (xs ++ s) = countHeadingGo 0 false s
  | [], _ => rfl
  | _ :: xs, s => countHeadingGo_consume xs s

theorem countHeadingGo_skipline : ∀ (xs rest : Str), '\n' ∉ xs →
    countHeadingGo 0 false (xs ++ '\n' :: rest) = countHeadingGo 0 true rest
  | [], rest, _ => by
    rw [List.nil_append, countHeadingGo_notStart,
      show (decide ('\n' = '\n')) = true from rfl]
  | x :: xs, rest, h => by
    rw [List.cons_append, countHeadingGo_notStart,
      show (decide (x = '\n')) = false from decide_eq_false
        (fun he => h (by rw [he]; exact List.mem_cons_self '\n' xs))]
    exact countHeadingGo_skipline xs rest (fun hm => h (List.mem_cons_of_mem x hm))

theorem countHeadingGo_end : ∀ xs : Str, '\n' ∉ xs → countHeadingGo 0 false xs = 0
  | [], _ => rfl
  | x :: xs, h => by
    rw [countHeadingGo_notStart,
      show (decide (x = '\n')) = false from decide_eq_false
        (fun he => h (by rw [he]; exact List.mem_cons_self '\n' xs))]
    exact countHeadingGo_end xs (fun hm => h (List.mem_cons_of_mem x hm))

theorem countHeadingGo_line_step (l rest : Str) (hok : lineOk l) :
    countHeadingGo 0 true (l ++ '\n' :: rest) =
      (if isHeadingLineB l then 1 else 0) + countHeadingGo 0 true rest := by
  have hml := headingLineMatchAt_line l ('\n' :: rest) hok (Or.inr rfl)
  cases l with
  | nil =>
    have h1 : countHeadingGo 0 true (([] : Str) ++ '\n' :: rest)
        = countHeadingGo 0 true rest := rfl
    have h2 : isHeadingLineB ([] : Str) = false := rfl
    rw [h1, h2]
    simp
  | cons c l' =>
    have hc : c ≠ '\n' := fun he => hok.1 (he ▸ List.mem_cons_self c l')
    rw [List.cons_append] at hml ⊢
    by_cases hb : isHeadingLineB (c :: l') = true
    · rw [if_pos hb] at hml
      rw [countHeadingGo_start_some c (l' ++ '\n' :: rest) (c :: l').length hml, if_pos hb]
      have h1 : (c :: l').length - 1 = l'.length := by simp
      rw [h1, countHeadingGo_consume l' ('\n' :: rest), countHeadingGo_notStart,
        show (decide ('\n' = '\n')) = true from rfl]
    · rw [if_neg hb] at hml
      rw [countHeadingGo_start_none c (l' ++ '\n' :: rest) hml, decide_eq_false hc,
        countHeadingGo_skipline l' rest (fun hm => hok.1 (List.mem_cons_of_mem c hm)),
        if_neg hb, Nat.zero_add]

theorem countHeadingGo_last (l : Str) (hok : lineOk l) :
    countHeadingGo 0 true l = if isHeadingLineB l then 1 else 0 := by
  have hml := headingLineMatchAt_line l [] hok (Or.inl rfl)
  rw [List.append_nil] at hml
  cases l with
  | nil => rfl
  | cons c l' =>
    by_cases hb : isHeadingLineB (c :: l') = true
    · rw [if_pos hb] at hml
      rw [countHeadingGo_start_some c l' (c :: l').length hml, if_pos hb]
      have h1 : (c :: l').length - 1 = l'.length := by simp
      have h2 : countHeadingGo l'.length false l' = 0 := by
        have h3 := countHeadingGo_consume l' []
        rw [List.append_nil] at h3
        rw [h3]
        rfl
      rw [h1, h2]
    · rw [if_neg hb] at hml
      rw [countHeadingGo_start_none c l' hml,
        show (decide (c = '\n')) = false from decide_eq_false
          (fun he => hok.1 (by rw [he]; exact List.mem_cons_self '\n' l')), if_neg hb]
      exact countHeadingGo_end l' (fun hm => hok.1 (List.mem_cons_of_mem c hm))

theorem countHeading_unlines : ∀ ls : List Str, (∀ l ∈ ls, lineOk l) →
    countHeadingGo 0 true (unlines ls) = ls.countP isHeadingLineB
  | [], _ => rfl
  | [l], h => by
    show countHeadingGo 0 true l = _
    rw [countHeadingGo_last l (h l (List.mem_cons_self l []))]
    simp [List.countP_cons]
  | l :: l₂ :: ls, h => by
    show countHeadingGo 0 true (l ++ '\n' :: unlines (l₂ :: ls)) = _
    rw [countHeadingGo_line_step l (unlines (l₂ :: ls)) (h l (List.mem_cons_self l _)),
      countHeading_unlines (l₂ :: ls) (fun x hx => h x (List.mem_cons_of_mem l hx))]
    conv_rhs => rw [List.countP_cons]
    exact Nat.add_comm _ _

/-- C8: amended claim — reordering the sections of the content can change
the structural score (see the counterexample: the direct-answer factor
depends on which paragraph comes first), but the heading-count factor is
order independent: two bodies assembled from the same multiset of
terminator-free lines (where every heading-shaped line keeps visible text
after its hashes) receive the same `headingCount` from
`calculateStructuralScore`. -/
theorem C8_heading_count_reorder (ls₁ ls₂ : List Str) (schemaMarkup brandName : Str)
    (keywords : List Str) (hperm : ls₁.Perm ls₂) (hok : ∀ l ∈ ls₁, lineOk l) :
    (calculateStructuralScore (unlines ls₁) schemaMarkup brandName keywords).factors.headingCount =
      (calculateStructuralScore (unlines ls₂) schemaMarkup brandName keywords).factors.headingCount := by
  have hok₂ : ∀ l ∈ ls₂, lineOk l := fun l hl => hok l (hperm.mem_iff.mpr hl)
  have h₁ : (calculateStructuralScore (unlines ls₁) schemaMarkup brandName
      keywords).factors.headingCount = countHeadingGo 0 true (unlines ls₁) := rfl
  have h₂ : (calculateStructuralScore (unlines ls₂) schemaMarkup brandName
      keywords).factors.headingCount = countHeadingGo 0 true (unlines ls₂) := rfl
  rw [h₁, h₂, countHeading_unlines ls₁ hok, countHeading_unlines ls₂ hok₂]
  exact hperm.countP_eq isHeadingLineB

/-- A concrete line multiset for the heading-invariance witness. -/
def exLinesA : List Str := [str "# Overview", str "Plain text body.", str "## Details"]

/-- A permutation of `exLinesA`. -/
def exLinesB : List Str := [str "Plain text body.", str "## Details", str "# Overview"]

/-- Witness: `C8_heading_count_reorder` applied to a concrete permutation
of three lines. -/
theorem C8_heading_count_reorder_witness :
    exLinesA.Perm exLinesB ∧ (∀ l ∈ exLinesA, lineOk l) ∧
      (calculateStructuralScore (unlines exLinesA) [] [] []).factors.headingCount =
        (calculateStructuralScore (unlines exLinesB) [] [] []).factors.headingCount :=
  ⟨by decide, by decide,
    C8_heading_count_reorder exLinesA exLinesB [] [] [] (by decide) (by decide)⟩

end Citability
